import Mathlib

/-!
Verification development for the Banking-System repository (money transfer
engine).  The definitions below are a shallow embedding of the Python source:

* `User`, `Transaction` follow `schemas.py` (monetary amounts as `ℤ`,
  calendar dates as `ℤ` day numbers; the autoincrement `id` and server-side
  `timestamp` of `Transaction` are not needed by any claim and are omitted).
* `validate_transfer_request` and `execute_transfer` follow
  `services/transfer_service.py`.
* `money_transfer`, `scheduled_money_transfer` follow `api/routes/transfers.py`.
* `schedule_money_transfer_task` follows the body of the Celery task in
  `celery_worker.py`; `runJobGo` embeds Celery's documented retry protocol for
  `@task(bind=True, max_retries=3)` together with `self.retry(countdown=60)`.
* `AsyncResultState` and `get_task_status` follow `api/routes/tasks.py`;
  Celery's result backend reports an unknown task id as state `PENDING`.

State model: the durable state is the committed database.  `db.commit()` is the
only persistence point in the source; every path that raises `HTTPException`
or returns a failure dict does so without committing, and `db.rollback()` on a
storage error discards all uncommitted mutations, so on every non-success path
the durable state is unchanged.
-/

namespace Banking

/-- The standing daily limit, the constant `2000` of the source. -/
def DAILY_LIMIT : ℤ := 2000

/-- Row of the `users` table (`schemas.User`).  `id` is the primary key and
`AccountNo` carries a unique constraint; `Amount` is the balance and
`daily_used` the remaining daily allowance (despite its name: the code resets
it to `2000` and decrements it by the transferred amount). -/
structure User where
  id : ℤ
  username : String
  AccountNo : ℤ
  Amount : ℤ
  daily_used : ℤ
  last_reset : ℤ
deriving Repr, DecidableEq

/-- Row of the `transactions` table (`schemas.Transaction`), without the
autoincrement id and the server-side timestamp. -/
structure Transaction where
  user_id : ℤ
  account_no : ℤ
  amount : ℤ
  transaction_type : String
deriving Repr, DecidableEq

/-- Committed database contents relevant to the claims. -/
structure DB where
  users : List User
  txns : List Transaction
deriving Repr, DecidableEq

/-- A scheduled transfer job as persisted by `apply_async`: the payload plus
the task id returned to the caller and the eta. -/
structure TransferJob where
  taskId : ℕ
  sender_id : ℤ
  receiver_account : ℤ
  amount : ℤ
  eta : ℤ
deriving Repr, DecidableEq

/-- Full system state: the database plus the pending scheduled jobs. -/
structure SysState where
  db : DB
  jobs : List TransferJob
deriving Repr, DecidableEq

/-- Rejection reasons of `TransferService.validate_transfer_request`, in the
order the code checks them.  `dailyLimitExceeded` carries the remaining
allowance that the f-string of the source interpolates into the detail. -/
inductive TransferError where
  | invalidAmount
  | selfTransfer
  | insufficientFunds
  | dailyLimitExceeded (remaining : ℤ)
deriving Repr, DecidableEq

/-- The lazy daily reset of `validate_transfer_request` (and of the Celery
task): if `last_reset` differs from today, restore `daily_used` to `2000` and
advance `last_reset`. -/
def resetDaily (u : User) (today : ℤ) : User :=
  if u.last_reset ≠ today then { u with daily_used := DAILY_LIMIT, last_reset := today } else u

/-- `TransferService.validate_transfer_request`.  Returns the sender as the
session sees it after the call (the reset is an attribute mutation on the
sender object) together with the rejection, if any.  The checks run in the
source's order; the reset happens only after the funds check. -/
def validate_transfer_request (sender receiver : User) (amount : ℤ) (today : ℤ) :
    User × Option TransferError :=
  if amount ≤ 0 then (sender, some .invalidAmount)
  else if sender.AccountNo = receiver.AccountNo then (sender, some .selfTransfer)
  else if sender.Amount < amount then (sender, some .insufficientFunds)
  else
    let s1 := resetDaily sender today
    if amount > s1.daily_used then (s1, some (.dailyLimitExceeded s1.daily_used))
    else (s1, none)

/-- Result of `TransferService.execute_transfer` at the session level: either a
rejection (HTTPException from validation), a storage failure
(`SQLAlchemyError` caught, rolled back and re-raised as a 500), or the
committed sender and receiver rows together with the two transaction rows. -/
inductive ExecResult where
  | rejected (e : TransferError)
  | storageFailure
  | ok (sender receiver : User) (senderTxn receiverTxn : Transaction)
deriving Repr, DecidableEq

/-- `TransferService.execute_transfer`: validate, then debit the sender (both
balance and remaining daily allowance), credit the receiver, and build the
debit/credit transaction pair.  `commitOk` models whether `db.commit()`
succeeds; on failure everything is rolled back. -/
def execute_transfer (sender receiver : User) (amount : ℤ) (today : ℤ) (commitOk : Bool) :
    ExecResult :=
  match validate_transfer_request sender receiver amount today with
  | (_, some e) => .rejected e
  | (s1, none) =>
    if commitOk then
      let s2 : User := { s1 with Amount := s1.Amount - amount, daily_used := s1.daily_used - amount }
      let r2 : User := { receiver with Amount := receiver.Amount + amount }
      .ok s2 r2 ⟨s2.id, s2.AccountNo, -amount, "debit"⟩ ⟨r2.id, r2.AccountNo, amount, "credit"⟩
    else .storageFailure

/-- `db.query(User).filter(User.id == uid).first()`. -/
def findById (users : List User) (uid : ℤ) : Option User :=
  users.find? (fun u => decide (u.id = uid))

/-- `db.query(User).filter(User.AccountNo == acc).first()`. -/
def findByAcc (users : List User) (acc : ℤ) : Option User :=
  users.find? (fun u => decide (u.AccountNo = acc))

/-- Replace the row with the id of `u` by `u` (id is the primary key, so ORM
attribute mutation plus commit updates exactly that row). -/
def updateFn (u x : User) : User :=
  if x.id = u.id then u else x

/-- Commit the mutated row `u` into the table. -/
def updateUser (users : List User) (u : User) : List User :=
  users.map (updateFn u)

/-- Outcome of the immediate-transfer endpoint. -/
inductive TransferOutcome where
  | senderNotFound
  | receiverNotFound
  | rejected (e : TransferError)
  | storageFailure
  | ok (senderBalance senderDailyRemaining receiverBalance : ℤ)
deriving Repr, DecidableEq

/-- Whether an immediate-transfer outcome is the success response. -/
def TransferOutcome.isOk : TransferOutcome → Bool
  | .ok _ _ _ => true
  | _ => false

/-- `POST /transfers/immediate` (`money_transfer` in `api/routes/transfers.py`):
fetch sender by id, receiver by account number, then run the service.  Only a
successful `execute_transfer` commits; every failure path leaves the durable
state unchanged. -/
def money_transfer (db : DB) (sender_id receiver_account : ℤ) (amount : ℤ) (today : ℤ)
    (commitOk : Bool) : DB × TransferOutcome :=
  match findById db.users sender_id with
  | none => (db, .senderNotFound)
  | some sender =>
    match findByAcc db.users receiver_account with
    | none => (db, .receiverNotFound)
    | some receiver =>
      match execute_transfer sender receiver amount today commitOk with
      | .rejected e => (db, .rejected e)
      | .storageFailure => (db, .storageFailure)
      | .ok s2 r2 ts tr =>
        (⟨updateUser (updateUser db.users s2) r2, db.txns ++ [ts, tr]⟩,
         .ok s2.Amount s2.daily_used r2.Amount)

/-- Seconds per day; `datetime.combine(d, datetime.min.time())` maps a date to
its midnight instant. -/
def SECONDS_PER_DAY : ℤ := 86400

/-- Midnight of day `d` as an instant. -/
def midnightOf (d : ℤ) : ℤ := d * SECONDS_PER_DAY

/-- `date.today()` derived from the current instant. -/
def dayOf (t : ℤ) : ℤ := t / SECONDS_PER_DAY

/-- Outcome of the scheduling endpoint. -/
inductive ScheduleOutcome where
  | senderNotFound
  | receiverNotFound
  | rejected (e : TransferError)
  | dateNotFuture
  | scheduled (taskId : ℕ)
deriving Repr, DecidableEq

/-- `POST /transfers/scheduled` (`scheduled_money_transfer`): fetch both
accounts, run the full `validate_transfer_request`, then reject if the
scheduled midnight is strictly before `datetime.now()`, otherwise persist the
job via `apply_async` and return its id.  The endpoint never commits the ORM
session, so the database is unchanged in every branch. -/
def scheduled_money_transfer (db : DB) (jobs : List TransferJob) (sender_id receiver_account : ℤ)
    (amount : ℤ) (scheduled_date : ℤ) (now : ℤ) (nextTaskId : ℕ) :
    DB × List TransferJob × ScheduleOutcome :=
  match findById db.users sender_id with
  | none => (db, jobs, .senderNotFound)
  | some sender =>
    match findByAcc db.users receiver_account with
    | none => (db, jobs, .receiverNotFound)
    | some receiver =>
      match validate_transfer_request sender receiver amount (dayOf now) with
      | (_, some e) => (db, jobs, .rejected e)
      | (_, none) =>
        if midnightOf scheduled_date < now then (db, jobs, .dateNotFuture)
        else
          (db, jobs ++ [⟨nextTaskId, sender_id, receiver_account, amount, midnightOf scheduled_date⟩],
           .scheduled nextTaskId)

/-- Result of one execution attempt of the Celery task body: a returned
failure dict, a returned success dict, or an exception (which the task turns
into `self.retry`). -/
inductive TaskResult where
  | failed (error : String)
  | success (senderBalance senderDailyRemaining receiverBalance amount : ℤ)
  | transient
deriving Repr, DecidableEq

/-- Whether a task attempt returned the success dict. -/
def TaskResult.isSuccess : TaskResult → Bool
  | .success _ _ _ _ => true
  | _ => false

/-- `sender.Amount -= amount; sender.daily_used -= amount` on the (possibly
reset) sender row. -/
def taskDebit (s1 : User) (amount : ℤ) : User :=
  { s1 with Amount := s1.Amount - amount, daily_used := s1.daily_used - amount }

/-- `receiver.Amount += amount` on a row. -/
def creditUser (u : User) (amount : ℤ) : User :=
  { u with Amount := u.Amount + amount }

/-- Commit of the Celery task's mutations: the sender row (fetched by id)
becomes `s2`, and then the row whose account number matches the receiver is
credited — when the sender row itself carries the receiver's account number
the two mutations chain on that one row, exactly like the two attribute
updates on a single ORM object. -/
def taskApply (users : List User) (senderId : ℤ) (s2 : User) (receiverAcc : ℤ) (amount : ℤ) :
    List User :=
  users.map (fun u =>
    let u1 := if u.id = senderId then s2 else u
    if u1.AccountNo = receiverAcc then creditUser u1 amount else u1)

/-- The body of the Celery task `schedule_money_transfer` in
`celery_worker.py`: re-fetch both accounts, re-check funds and (after the lazy
reset) the daily limit — there is no amount or self-transfer check — then
mutate the balances and commit.  No transaction rows are written on this path.
`transientFail` models an exception inside the `try` block (the
`except Exception` arm rolls back and calls `self.retry`).  The sender and the
receiver are the same ORM object exactly when the sender's account number
matches `receiver_account`; the sequence of attribute mutations then chains on
that single object, which the per-row update function reproduces. -/
def schedule_money_transfer_task (db : DB) (sender_id receiver_account : ℤ) (amount : ℤ)
    (today : ℤ) (transientFail : Bool) : DB × TaskResult :=
  if transientFail then (db, .transient)
  else
    match findById db.users sender_id with
    | none => (db, .failed "Sender not found")
    | some sender =>
      match findByAcc db.users receiver_account with
      | none => (db, .failed "Receiver account not found")
      | some receiver =>
        if sender.Amount < amount then (db, .failed "Insufficient funds")
        else
          let s1 := resetDaily sender today
          if amount > s1.daily_used then (db, .failed "Transfer exceeds daily limit")
          else
            let s2 := taskDebit s1 amount
            let senderFinalBalance : ℤ :=
              if s2.AccountNo = receiver.AccountNo then s2.Amount + amount else s2.Amount
            let receiverFinalBalance : ℤ :=
              if s2.AccountNo = receiver.AccountNo then s2.Amount + amount else receiver.Amount + amount
            (⟨taskApply db.users sender.id s2 receiver.AccountNo amount, db.txns⟩,
             .success senderFinalBalance s2.daily_used receiverFinalBalance amount)

/-- `max_retries=3` of the task decorator: up to three retries after the first
attempt. -/
def celery_max_retries : ℕ := 3

/-- `countdown=60` of `self.retry`: the fixed delay before a retry runs. -/
def retry_countdown : ℤ := 60

/-- Terminal state of a dispatched job under Celery's retry protocol. -/
inductive JobFinal where
  | succeeded (senderBalance senderDailyRemaining receiverBalance amount : ℤ)
  | failed (error : String)
  | exhausted
deriving Repr, DecidableEq

/-- Whether a terminal job state is a failure (a returned failure dict or
retries exhausted, in which case Celery records the last error and marks the
task FAILURE). -/
def JobFinal.isTerminalFailure : JobFinal → Bool
  | .failed _ => true
  | .exhausted => true
  | _ => false

/-- Celery's retry protocol for `@task(bind=True, max_retries=3)` with
`self.retry(exc=e, countdown=60)`: run the task body; on an exception, retry
`countdown` time-units later as long as fewer than `max_retries` retries have
happened, otherwise the task fails with the last error.  `transient n` says
whether retry number `n` hits a transient exception.  Returns the final
database, the terminal state, the retry counter of the last attempt and the
instant of the last attempt. -/
def runJobGo (db : DB) (sender_id receiver_account : ℤ) (amount : ℤ) (today : ℤ)
    (transient : ℕ → Bool) : ℕ → ℕ → ℤ → DB × JobFinal × ℕ × ℤ
  | 0, retries, t => (db, .exhausted, retries, t)
  | fuel + 1, retries, t =>
    match schedule_money_transfer_task db sender_id receiver_account amount today (transient retries) with
    | (db1, .transient) =>
      if retries < celery_max_retries then
        runJobGo db1 sender_id receiver_account amount today transient fuel (retries + 1)
          (t + retry_countdown)
      else (db1, .exhausted, retries, t)
    | (db1, .failed e) => (db1, .failed e, retries, t)
    | (db1, .success sb sd rb amt) => (db1, .succeeded sb sd rb amt, retries, t)

/-- Dispatch of a scheduled job at instant `t0`: the retry loop started with a
fresh retry counter. -/
def runJob (db : DB) (sender_id receiver_account : ℤ) (amount : ℤ) (today : ℤ)
    (transient : ℕ → Bool) (t0 : ℤ) : DB × JobFinal × ℕ × ℤ :=
  runJobGo db sender_id receiver_account amount today transient (celery_max_retries + 1) 0 t0

/-- One user created by the seed endpoint: balance 5000, full daily allowance,
account number `1000000000 + i` for user id `i`. -/
def seedUser (i : ℤ) (today : ℤ) : User :=
  ⟨i, "user" ++ toString i, 1000000000 + i, 5000, DAILY_LIMIT, today⟩

/-- `POST /users/seed`: delete all users and insert users 1..10 (SQLite hands
out rowids 1..10 again on an empty table). -/
def seedUsers (today : ℤ) : List User :=
  [seedUser 1 today, seedUser 2 today, seedUser 3 today, seedUser 4 today, seedUser 5 today,
   seedUser 6 today, seedUser 7 today, seedUser 8 today, seedUser 9 today, seedUser 10 today]

/-- States reachable through the public operations: the empty store, seeding,
an immediate transfer, scheduling a transfer, and dispatching a persisted job
(which runs the Celery retry loop and retires the job). -/
inductive Reachable : SysState → Prop where
  | init : Reachable ⟨⟨[], []⟩, []⟩
  | seed (s : SysState) (today : ℤ) : Reachable s →
      Reachable ⟨⟨seedUsers today, s.db.txns⟩, s.jobs⟩
  | immediate (s : SysState) (sender_id receiver_account : ℤ) (amount : ℤ) (today : ℤ)
      (commitOk : Bool) : Reachable s →
      Reachable ⟨(money_transfer s.db sender_id receiver_account amount today commitOk).1, s.jobs⟩
  | schedule (s : SysState) (sender_id receiver_account : ℤ) (amount : ℤ)
      (scheduled_date now : ℤ) (nextTaskId : ℕ) : Reachable s →
      Reachable ⟨(scheduled_money_transfer s.db s.jobs sender_id receiver_account amount
          scheduled_date now nextTaskId).1,
        (scheduled_money_transfer s.db s.jobs sender_id receiver_account amount
          scheduled_date now nextTaskId).2.1⟩
  | dispatch (s : SysState) (j : TransferJob) (today : ℤ) (transient : ℕ → Bool) (t0 : ℤ) :
      Reachable s → j ∈ s.jobs →
      Reachable ⟨(runJob s.db j.sender_id j.receiver_account j.amount today transient t0).1,
        s.jobs.erase j⟩

/-- Celery task states as the result backend reports them (`SUCCESS` stores
the returned dict, `FAILURE` the exception text). -/
inductive TaskState where
  | PENDING
  | STARTED
  | SUCCESS (result : String)
  | FAILURE (error : String)
deriving Repr, DecidableEq

/-- `celery_app.AsyncResult(task_id).state`: Celery's result backend has no
"not found" state — an id it has never seen is reported as `PENDING`. -/
def AsyncResultState (backend : List (String × TaskState)) (task_id : String) : TaskState :=
  match backend.find? (fun p => decide (p.1 = task_id)) with
  | some p => p.2
  | none => .PENDING

/-- Response of `GET /tasks/status/{task_id}`. -/
structure TaskStatusResponse where
  task_id : String
  status : String
  message : Option String
  result : Option String
  error : Option String
deriving Repr, DecidableEq

/-- `get_task_status` in `api/routes/tasks.py`: lowercase the Celery state,
attach the waiting message while PENDING, the result payload on SUCCESS, the
error text on FAILURE. -/
def get_task_status (backend : List (String × TaskState)) (task_id : String) :
    TaskStatusResponse :=
  match AsyncResultState backend task_id with
  | .PENDING => ⟨task_id, "pending", some "Transfer is scheduled and waiting to be executed", none, none⟩
  | .STARTED => ⟨task_id, "started", none, none, none⟩
  | .SUCCESS r => ⟨task_id, "success", none, some r, none⟩
  | .FAILURE e => ⟨task_id, "failure", none, none, some e⟩

/-- Sum of all account balances. -/
def balanceSum (users : List User) : ℤ := (users.map User.Amount).sum

/-- Well-formedness of the users table as the store's constraints guarantee
it: the primary key is unique, the seeded account-number scheme holds, and the
documented monetary invariants hold. -/
def UsersWF (users : List User) : Prop :=
  (users.map User.id).Nodup ∧
  ∀ u ∈ users, u.AccountNo = 1000000000 + u.id ∧ 0 ≤ u.Amount ∧ 0 ≤ u.daily_used ∧
    u.daily_used ≤ DAILY_LIMIT

/-- Every persisted job passed schedule-time validation: a positive amount and
a receiver account different from the sender's own. -/
def JobsWF (jobs : List TransferJob) : Prop :=
  ∀ j ∈ jobs, 0 < j.amount ∧ j.receiver_account ≠ 1000000000 + j.sender_id

/-- Combined system invariant. -/
def WF (s : SysState) : Prop := UsersWF s.db.users ∧ JobsWF s.jobs

end Banking

namespace Banking

/-! ### Basic lemmas about rows, lookups and row updates -/

theorem resetDaily_id (u : User) (today : ℤ) : (resetDaily u today).id = u.id := by
  unfold resetDaily; split <;> rfl

theorem resetDaily_AccountNo (u : User) (today : ℤ) :
    (resetDaily u today).AccountNo = u.AccountNo := by
  unfold resetDaily; split <;> rfl

theorem resetDaily_Amount (u : User) (today : ℤ) : (resetDaily u today).Amount = u.Amount := by
  unfold resetDaily; split <;> rfl

theorem resetDaily_of_today (u : User) (today : ℤ) (h : u.last_reset = today) :
    resetDaily u today = u := by
  unfold resetDaily; simp [h]

theorem resetDaily_of_ne (u : User) (today : ℤ) (h : u.last_reset ≠ today) :
    resetDaily u today = { u with daily_used := DAILY_LIMIT, last_reset := today } := by
  unfold resetDaily; simp [h]

theorem updateFn_id (u x : User) : (updateFn u x).id = x.id := by
  unfold updateFn; split
  next h => exact h.symm
  next => rfl

theorem updateUser_map_id (l : List User) (u : User) :
    (updateUser l u).map User.id = l.map User.id := by
  induction l with
  | nil => rfl
  | cons h t ih =>
    simp only [updateUser, List.map_cons] at *
    exact congrArg₂ List.cons (updateFn_id u h) ih

theorem mem_updateUser_of_ne (l : List User) (u x : User) (hx : x ∈ l) (hne : x.id ≠ u.id) :
    x ∈ updateUser l u := by
  have hfx : updateFn u x = x := by unfold updateFn; simp [hne]
  have := List.mem_map_of_mem (updateFn u) hx
  rwa [hfx] at this

theorem mem_updateUser_self (l : List User) (u x : User) (hx : x ∈ l) (hid : x.id = u.id) :
    u ∈ updateUser l u := by
  have hfx : updateFn u x = u := by unfold updateFn; simp [hid]
  have := List.mem_map_of_mem (updateFn u) hx
  rwa [hfx] at this

theorem nodup_map_id_inj {l : List User} (hn : (l.map User.id).Nodup) {x y : User}
    (hx : x ∈ l) (hy : y ∈ l) (h : x.id = y.id) : x = y := by
  induction l with
  | nil => cases hx
  | cons a t ih =>
    simp only [List.map_cons, List.nodup_cons, List.mem_map] at hn
    rcases hn with ⟨ha, ht⟩
    rcases List.mem_cons.mp hx with hx1 | hx1 <;> rcases List.mem_cons.mp hy with hy1 | hy1
    · exact hx1.trans hy1.symm
    · exact absurd ⟨y, hy1, (hx1 ▸ h).symm⟩ ha
    · exact absurd ⟨x, hx1, hy1 ▸ h⟩ ha
    · exact ih ht hx1 hy1

theorem findById_inv {l : List User} {uid : ℤ} {u : User} (h : findById l uid = some u) :
    u ∈ l ∧ u.id = uid := by
  unfold findById at h
  refine ⟨List.mem_of_find?_eq_some h, ?_⟩
  have := List.find?_some h
  exact of_decide_eq_true this

theorem findByAcc_inv {l : List User} {acc : ℤ} {u : User} (h : findByAcc l acc = some u) :
    u ∈ l ∧ u.AccountNo = acc := by
  unfold findByAcc at h
  refine ⟨List.mem_of_find?_eq_some h, ?_⟩
  have := List.find?_some h
  exact of_decide_eq_true this

theorem updateUser_of_id_not_mem (l : List User) (u : User)
    (h : ∀ x ∈ l, x.id ≠ u.id) : updateUser l u = l := by
  induction l with
  | nil => rfl
  | cons a t ih =>
    have ha : updateFn u a = a := by
      unfold updateFn; simp [h a (List.mem_cons_self a t)]
    simp only [updateUser, List.map_cons] at *
    rw [ha, ih (fun x hx => h x (List.mem_cons_of_mem a hx))]

theorem balanceSum_updateUser (l : List User) (u u0 : User)
    (hn : (l.map User.id).Nodup) (h0 : u0 ∈ l) (hid : u.id = u0.id) :
    balanceSum (updateUser l u) = balanceSum l - u0.Amount + u.Amount := by
  induction l with
  | nil => cases h0
  | cons a t ih =>
    simp only [List.map_cons, List.nodup_cons, List.mem_map] at hn
    rcases hn with ⟨ha, ht⟩
    rcases List.mem_cons.mp h0 with h1 | h1
    · have hau : a.id = u.id := ((congrArg User.id h1).symm.trans hid.symm).symm.symm
      have hfa : updateFn u a = u := by unfold updateFn; simp [hau]
      have htail : updateUser t u = t := by
        refine updateUser_of_id_not_mem t u (fun x hx hxe => ha ?_)
        exact ⟨x, hx, hxe.trans hau.symm⟩
      simp only [updateUser, List.map_cons] at *
      rw [hfa, htail]
      simp [balanceSum, h1]
      ring
    · have haid : a.id ≠ u.id := by
        intro he
        exact ha ⟨u0, h1, hid.symm.trans he.symm⟩
      have hfa : updateFn u a = a := by unfold updateFn; simp [haid]
      simp only [updateUser, List.map_cons] at *
      rw [hfa]
      have := ih ht h1
      simp only [balanceSum, List.map_cons, List.sum_cons] at *
      rw [this]
      ring

/-! ### Characterization of the validator -/

theorem validate_invalidAmount (s r : User) (a today : ℤ) (h : a ≤ 0) :
    validate_transfer_request s r a today = (s, some .invalidAmount) := by
  unfold validate_transfer_request; simp [h]

theorem validate_selfTransfer (s r : User) (a today : ℤ) (h1 : ¬ a ≤ 0)
    (h2 : s.AccountNo = r.AccountNo) :
    validate_transfer_request s r a today = (s, some .selfTransfer) := by
  unfold validate_transfer_request; simp [h1, h2]

theorem validate_insufficient (s r : User) (a today : ℤ) (h1 : ¬ a ≤ 0)
    (h2 : s.AccountNo ≠ r.AccountNo) (h3 : s.Amount < a) :
    validate_transfer_request s r a today = (s, some .insufficientFunds) := by
  unfold validate_transfer_request; simp [h1, h2, h3]

theorem validate_dailyLimit (s r : User) (a today : ℤ) (h1 : ¬ a ≤ 0)
    (h2 : s.AccountNo ≠ r.AccountNo) (h3 : ¬ s.Amount < a)
    (h4 : a > (resetDaily s today).daily_used) :
    validate_transfer_request s r a today =
      (resetDaily s today, some (.dailyLimitExceeded (resetDaily s today).daily_used)) := by
  unfold validate_transfer_request; simp [h1, h2, h3, h4]

theorem validate_ok (s r : User) (a today : ℤ) (h1 : ¬ a ≤ 0)
    (h2 : s.AccountNo ≠ r.AccountNo) (h3 : ¬ s.Amount < a)
    (h4 : ¬ a > (resetDaily s today).daily_used) :
    validate_transfer_request s r a today = (resetDaily s today, none) := by
  unfold validate_transfer_request; simp [h1, h2, h3, h4]

theorem validate_none_inv {s r : User} {a today : ℤ} {s1 : User}
    (h : validate_transfer_request s r a today = (s1, none)) :
    ¬ a ≤ 0 ∧ s.AccountNo ≠ r.AccountNo ∧ ¬ s.Amount < a ∧
      s1 = resetDaily s today ∧ ¬ a > s1.daily_used := by
  by_cases h1 : a ≤ 0
  · rw [validate_invalidAmount s r a today h1] at h; simp at h
  by_cases h2 : s.AccountNo = r.AccountNo
  · rw [validate_selfTransfer s r a today h1 h2] at h; simp at h
  by_cases h3 : s.Amount < a
  · rw [validate_insufficient s r a today h1 h2 h3] at h; simp at h
  by_cases h4 : a > (resetDaily s today).daily_used
  · rw [validate_dailyLimit s r a today h1 h2 h3 h4] at h; simp at h
  rw [validate_ok s r a today h1 h2 h3 h4] at h
  have hs1 : s1 = resetDaily s today := (Prod.mk.injEq _ _ _ _ ▸ h).1.symm
  exact ⟨h1, h2, h3, hs1, hs1 ▸ h4⟩

end Banking

namespace Banking

/-! ### Inversion lemmas for the executor, the routes and the task body -/

theorem execute_ok_inv {sender receiver : User} {a today : ℤ} {commitOk : Bool}
    {s2 r2 : User} {ts tr : Transaction}
    (h : execute_transfer sender receiver a today commitOk = .ok s2 r2 ts tr) :
    commitOk = true ∧ ∃ s1,
      validate_transfer_request sender receiver a today = (s1, none) ∧
      s2 = { s1 with Amount := s1.Amount - a, daily_used := s1.daily_used - a } ∧
      r2 = { receiver with Amount := receiver.Amount + a } ∧
      ts = ⟨s1.id, s1.AccountNo, -a, "debit"⟩ ∧ tr = ⟨receiver.id, receiver.AccountNo, a, "credit"⟩ := by
  unfold execute_transfer at h
  rcases hv : validate_transfer_request sender receiver a today with ⟨s1, o⟩
  rw [hv] at h
  rcases o with _ | e
  · dsimp only at h
    split at h
    · rename_i hct
      injection h with h2 h3 h4 h5
      exact ⟨hct, s1, rfl, h2.symm, h3.symm, h4.symm, h5.symm⟩
    · simp at h
  · simp at h

theorem money_transfer_ok_inv {db : DB} {sid racc a today : ℤ} {commitOk : Bool}
    {db' : DB} {sb sd rb : ℤ}
    (h : money_transfer db sid racc a today commitOk = (db', .ok sb sd rb)) :
    ∃ sender receiver s2 r2 ts tr,
      findById db.users sid = some sender ∧ findByAcc db.users racc = some receiver ∧
      execute_transfer sender receiver a today commitOk = .ok s2 r2 ts tr ∧
      db' = ⟨updateUser (updateUser db.users s2) r2, db.txns ++ [ts, tr]⟩ ∧
      sb = s2.Amount ∧ sd = s2.daily_used ∧ rb = r2.Amount := by
  unfold money_transfer at h
  split at h
  · simp at h
  · split at h
    · simp at h
    · split at h
      · simp at h
      · simp at h
      · rename_i xa sender hf1 xb receiver hf2 xc s2 r2 ts tr he
        injection h with hdb hout
        injection hout with h1 h2 h3
        exact ⟨sender, receiver, s2, r2, ts, tr, hf1, hf2, he, hdb.symm, h1.symm, h2.symm, h3.symm⟩

theorem money_transfer_fail {db : DB} {sid racc a today : ℤ} {commitOk : Bool}
    {db' : DB} {out : TransferOutcome}
    (h : money_transfer db sid racc a today commitOk = (db', out))
    (hno : out.isOk = false) : db' = db := by
  unfold money_transfer at h
  split at h
  · injection h with hdb _; exact hdb.symm
  · split at h
    · injection h with hdb _; exact hdb.symm
    · split at h
      · injection h with hdb _; exact hdb.symm
      · injection h with hdb _; exact hdb.symm
      · injection h with _ hout
        rw [← hout] at hno
        simp [TransferOutcome.isOk] at hno

theorem task_txns (db : DB) (sid racc a today : ℤ) (tf : Bool) :
    (schedule_money_transfer_task db sid racc a today tf).1.txns = db.txns := by
  unfold schedule_money_transfer_task
  split
  · rfl
  · split
    · rfl
    · split
      · rfl
      · split
        · rfl
        · dsimp only
          split
          · rfl
          · rfl

theorem task_fail {db : DB} {sid racc a today : ℤ} {tf : Bool} {db2 : DB} {out : TaskResult}
    (h : schedule_money_transfer_task db sid racc a today tf = (db2, out))
    (hno : out.isSuccess = false) : db2 = db := by
  unfold schedule_money_transfer_task at h
  split at h
  · injection h with hdb _; exact hdb.symm
  · split at h
    · injection h with hdb _; exact hdb.symm
    · split at h
      · injection h with hdb _; exact hdb.symm
      · split at h
        · injection h with hdb _; exact hdb.symm
        · dsimp only at h
          split at h
          · injection h with hdb _; exact hdb.symm
          · injection h with _ hout
            rw [← hout] at hno
            simp [TaskResult.isSuccess] at hno

theorem task_success_inv {db : DB} {sid racc a today : ℤ} {tf : Bool} {db2 : DB}
    {sb sd rb amt : ℤ}
    (h : schedule_money_transfer_task db sid racc a today tf = (db2, .success sb sd rb amt)) :
    tf = false ∧ ∃ sender receiver,
      findById db.users sid = some sender ∧ findByAcc db.users racc = some receiver ∧
      ¬ sender.Amount < a ∧ ¬ a > (resetDaily sender today).daily_used ∧
      amt = a ∧ sd = (resetDaily sender today).daily_used - a ∧
      db2 = ⟨taskApply db.users sender.id (taskDebit (resetDaily sender today) a)
              receiver.AccountNo a, db.txns⟩ ∧
      sb = (if sender.AccountNo = receiver.AccountNo
            then (resetDaily sender today).Amount - a + a
            else (resetDaily sender today).Amount - a) ∧
      rb = (if sender.AccountNo = receiver.AccountNo
            then (resetDaily sender today).Amount - a + a
            else receiver.Amount + a) := by
  unfold schedule_money_transfer_task at h
  split at h
  · simp at h
  · rename_i htf
    split at h
    · simp at h
    · split at h
      · simp at h
      · split at h
        · simp at h
        · dsimp only at h
          split at h
          · simp at h
          · rename_i xa sender hf1 xb receiver hf2 h3 h4
            injection h with hdb hout
            injection hout with hsb hsd hrb hamt
            refine ⟨by simpa using htf, sender, receiver, hf1, hf2, h3, h4, hamt.symm,
              hsd.symm, hdb.symm, ?_, ?_⟩
            · rw [← hsb]
              simp [taskDebit, resetDaily_AccountNo]
            · rw [← hrb]
              simp [taskDebit, resetDaily_AccountNo]

end Banking

namespace Banking

/-! ### Field lemmas for the row helpers -/

theorem taskDebit_id (u : User) (a : ℤ) : (taskDebit u a).id = u.id := rfl

theorem taskDebit_AccountNo (u : User) (a : ℤ) : (taskDebit u a).AccountNo = u.AccountNo := rfl

theorem taskDebit_Amount (u : User) (a : ℤ) : (taskDebit u a).Amount = u.Amount - a := rfl

theorem taskDebit_daily (u : User) (a : ℤ) : (taskDebit u a).daily_used = u.daily_used - a := rfl

theorem creditUser_id (u : User) (a : ℤ) : (creditUser u a).id = u.id := rfl

theorem creditUser_AccountNo (u : User) (a : ℤ) : (creditUser u a).AccountNo = u.AccountNo := rfl

theorem creditUser_Amount (u : User) (a : ℤ) : (creditUser u a).Amount = u.Amount + a := rfl

theorem creditUser_daily (u : User) (a : ℤ) : (creditUser u a).daily_used = u.daily_used := rfl

/-! ### The scheduling endpoint -/

theorem sched_db_unchanged (db : DB) (jobs : List TransferJob) (sid racc a d now : ℤ)
    (nid : ℕ) : (scheduled_money_transfer db jobs sid racc a d now nid).1 = db := by
  unfold scheduled_money_transfer
  split
  · rfl
  · split
    · rfl
    · split
      · rfl
      · split
        · rfl
        · rfl

theorem sched_senderNotFound {db : DB} (jobs : List TransferJob) {sid : ℤ} (racc a d now : ℤ)
    (nid : ℕ) (hf1 : findById db.users sid = none) :
    scheduled_money_transfer db jobs sid racc a d now nid = (db, jobs, .senderNotFound) := by
  unfold scheduled_money_transfer
  rw [hf1]

theorem sched_rejected {db : DB} (jobs : List TransferJob) {sid racc a : ℤ} (d : ℤ) {now : ℤ}
    (nid : ℕ) {sender receiver s1 : User} {e : TransferError}
    (hf1 : findById db.users sid = some sender) (hf2 : findByAcc db.users racc = some receiver)
    (hv : validate_transfer_request sender receiver a (dayOf now) = (s1, some e)) :
    scheduled_money_transfer db jobs sid racc a d now nid = (db, jobs, .rejected e) := by
  unfold scheduled_money_transfer
  rw [hf1]
  dsimp only
  rw [hf2]
  dsimp only
  rw [hv]

theorem sched_dateNotFuture {db : DB} (jobs : List TransferJob) {sid racc a d now : ℤ}
    (nid : ℕ) {sender receiver s1 : User}
    (hf1 : findById db.users sid = some sender) (hf2 : findByAcc db.users racc = some receiver)
    (hv : validate_transfer_request sender receiver a (dayOf now) = (s1, none))
    (hpast : midnightOf d < now) :
    scheduled_money_transfer db jobs sid racc a d now nid = (db, jobs, .dateNotFuture) := by
  unfold scheduled_money_transfer
  rw [hf1]
  dsimp only
  rw [hf2]
  dsimp only
  rw [hv]
  dsimp only
  rw [if_pos hpast]

theorem sched_scheduled {db : DB} (jobs : List TransferJob) {sid racc a d now : ℤ}
    (nid : ℕ) {sender receiver s1 : User}
    (hf1 : findById db.users sid = some sender) (hf2 : findByAcc db.users racc = some receiver)
    (hv : validate_transfer_request sender receiver a (dayOf now) = (s1, none))
    (hfut : ¬ midnightOf d < now) :
    scheduled_money_transfer db jobs sid racc a d now nid =
      (db, jobs ++ [⟨nid, sid, racc, a, midnightOf d⟩], .scheduled nid) := by
  unfold scheduled_money_transfer
  rw [hf1]
  dsimp only
  rw [hf2]
  dsimp only
  rw [hv]
  dsimp only
  rw [if_neg hfut]

theorem sched_jobs_cases (db : DB) (jobs : List TransferJob) (sid racc a d now : ℤ) (nid : ℕ) :
    (scheduled_money_transfer db jobs sid racc a d now nid).2.1 = jobs ∨
    (∃ sender receiver s1,
      findById db.users sid = some sender ∧ findByAcc db.users racc = some receiver ∧
      validate_transfer_request sender receiver a (dayOf now) = (s1, none) ∧
      (scheduled_money_transfer db jobs sid racc a d now nid).2.1 =
        jobs ++ [⟨nid, sid, racc, a, midnightOf d⟩]) := by
  by_cases hf1e : ∃ sender, findById db.users sid = some sender
  · obtain ⟨sender, hf1⟩ := hf1e
    by_cases hf2e : ∃ receiver, findByAcc db.users racc = some receiver
    · obtain ⟨receiver, hf2⟩ := hf2e
      by_cases hve : ∃ s1, validate_transfer_request sender receiver a (dayOf now) = (s1, none)
      · obtain ⟨s1, hv⟩ := hve
        by_cases hpast : midnightOf d < now
        · left; rw [sched_dateNotFuture jobs nid hf1 hf2 hv hpast]
        · right
          exact ⟨sender, receiver, s1, hf1, hf2, hv,
            by rw [sched_scheduled jobs nid hf1 hf2 hv hpast]⟩
      · rcases hv2 : validate_transfer_request sender receiver a (dayOf now) with ⟨s1, o⟩
        rcases o with _ | e
        · exact absurd ⟨s1, hv2⟩ hve
        · left; rw [sched_rejected jobs d nid hf1 hf2 hv2]
    · rcases hf2 : findByAcc db.users racc with _ | receiver
      · left
        unfold scheduled_money_transfer
        rw [hf1]
        dsimp only
        rw [hf2]
      · exact absurd ⟨receiver, hf2⟩ hf2e
  · rcases hf1 : findById db.users sid with _ | sender
    · left; rw [sched_senderNotFound jobs racc a d now nid hf1]
    · exact absurd ⟨sender, hf1⟩ hf1e

end Banking

namespace Banking

/-! ### Preservation of the store invariants -/

theorem resetDaily_daily_le {u : User} {today : ℤ} (h : u.daily_used ≤ DAILY_LIMIT) :
    (resetDaily u today).daily_used ≤ DAILY_LIMIT := by
  unfold resetDaily
  split
  · exact le_refl _
  · exact h

theorem usersWF_updateUser {l : List User} {u : User} (hWF : UsersWF l)
    (hacc : u.AccountNo = 1000000000 + u.id) (hA : 0 ≤ u.Amount)
    (hd0 : 0 ≤ u.daily_used) (hdl : u.daily_used ≤ DAILY_LIMIT) :
    UsersWF (updateUser l u) := by
  obtain ⟨hn, hprops⟩ := hWF
  refine ⟨by rw [updateUser_map_id]; exact hn, ?_⟩
  intro x hx
  rcases List.mem_map.mp hx with ⟨y, hy, hfy⟩
  unfold updateFn at hfy
  split at hfy
  · rw [← hfy]; exact ⟨hacc, hA, hd0, hdl⟩
  · rw [← hfy]; exact hprops y hy

theorem usersWF_money_transfer {db : DB} {sid racc a today : ℤ} {commitOk : Bool}
    {db' : DB} {out : TransferOutcome}
    (h : money_transfer db sid racc a today commitOk = (db', out))
    (hWF : UsersWF db.users) : UsersWF db'.users := by
  cases hOk : out.isOk with
  | false => rw [money_transfer_fail h hOk]; exact hWF
  | true =>
    rcases out with _ | _ | e | _ | ⟨sb, sd, rb⟩ <;> simp [TransferOutcome.isOk] at hOk
    obtain ⟨sender, receiver, s2, r2, ts, tr, hf1, hf2, he, hdb', _, _, _⟩ :=
      money_transfer_ok_inv h
    obtain ⟨_, s1, hv, hs2, hr2, _, _⟩ := execute_ok_inv he
    obtain ⟨hpos, hne, hfunds, hs1, hlimit⟩ := validate_none_inv hv
    obtain ⟨hsmem, hsid⟩ := findById_inv hf1
    obtain ⟨hrmem, hracc⟩ := findByAcc_inv hf2
    have hsprops := hWF.2 sender hsmem
    have hrprops := hWF.2 receiver hrmem
    have hs1id : s1.id = sender.id := by rw [hs1, resetDaily_id]
    have hs1acc : s1.AccountNo = sender.AccountNo := by rw [hs1, resetDaily_AccountNo]
    have hs1am : s1.Amount = sender.Amount := by rw [hs1, resetDaily_Amount]
    have hs1dl : s1.daily_used ≤ DAILY_LIMIT := by
      rw [hs1]; exact resetDaily_daily_le hsprops.2.2.2
    have hs2id : s2.id = s1.id := by rw [hs2]
    have hs2acc : s2.AccountNo = s1.AccountNo := by rw [hs2]
    have hs2am : s2.Amount = s1.Amount - a := by rw [hs2]
    have hs2du : s2.daily_used = s1.daily_used - a := by rw [hs2]
    have hr2id : r2.id = receiver.id := by rw [hr2]
    have hr2acc : r2.AccountNo = receiver.AccountNo := by rw [hr2]
    have hr2am : r2.Amount = receiver.Amount + a := by rw [hr2]
    have hr2du : r2.daily_used = receiver.daily_used := by rw [hr2]
    subst hdb'
    have hWF1 : UsersWF (updateUser db.users s2) := by
      refine usersWF_updateUser hWF ?_ ?_ ?_ ?_
      · rw [hs2acc, hs2id, hs1acc, hs1id]; exact hsprops.1
      · have := hsprops.2.1
        omega
      · omega
      · omega
    refine usersWF_updateUser hWF1 ?_ ?_ ?_ ?_
    · rw [hr2acc, hr2id]; exact hrprops.1
    · have := hrprops.2.1
      omega
    · rw [hr2du]; exact hrprops.2.2.1
    · rw [hr2du]; exact hrprops.2.2.2

theorem taskApply_map_id (l : List User) (senderId : ℤ) (s2 : User) (racc a : ℤ)
    (hs2 : s2.id = senderId) :
    (taskApply l senderId s2 racc a).map User.id = l.map User.id := by
  unfold taskApply
  rw [List.map_map]
  refine List.map_congr_left ?_
  intro u hu
  simp only [Function.comp_apply]
  by_cases h1 : u.id = senderId
  · rw [if_pos h1]
    by_cases h2 : s2.AccountNo = racc
    · rw [if_pos h2, creditUser_id, hs2, h1]
    · rw [if_neg h2, hs2, h1]
  · rw [if_neg h1]
    by_cases h2 : u.AccountNo = racc
    · rw [if_pos h2, creditUser_id]
    · rw [if_neg h2]

theorem usersWF_taskApply {l : List User} {sender receiver : User} {a today : ℤ}
    (hWF : UsersWF l) (hs : sender ∈ l) (hr : receiver ∈ l) (hpos : 0 < a)
    (hfunds : ¬ sender.Amount < a) (hlimit : ¬ a > (resetDaily sender today).daily_used) :
    UsersWF (taskApply l sender.id (taskDebit (resetDaily sender today) a)
      receiver.AccountNo a) := by
  obtain ⟨hn, hprops⟩ := hWF
  have hsprops := hprops sender hs
  have hdl : (resetDaily sender today).daily_used ≤ DAILY_LIMIT :=
    resetDaily_daily_le hsprops.2.2.2
  have hAm : (resetDaily sender today).Amount = sender.Amount := resetDaily_Amount _ _
  have hid : (resetDaily sender today).id = sender.id := resetDaily_id _ _
  have hAcc : (resetDaily sender today).AccountNo = sender.AccountNo := resetDaily_AccountNo _ _
  constructor
  · rw [taskApply_map_id _ _ _ _ _ (by rw [taskDebit_id, hid])]
    exact hn
  · intro x hx
    unfold taskApply at hx
    rcases List.mem_map.mp hx with ⟨u, hu, hfu⟩
    have huprops := hprops u hu
    dsimp only at hfu
    by_cases h1 : u.id = sender.id
    · rw [if_pos h1, taskDebit_AccountNo, hAcc] at hfu
      by_cases h2 : sender.AccountNo = receiver.AccountNo
      · rw [if_pos h2] at hfu
        rw [← hfu]
        refine ⟨?_, ?_, ?_, ?_⟩
        · rw [creditUser_AccountNo, creditUser_id, taskDebit_AccountNo, taskDebit_id, hAcc, hid]
          exact hsprops.1
        · rw [creditUser_Amount, taskDebit_Amount, hAm]
          omega
        · rw [creditUser_daily, taskDebit_daily]
          omega
        · rw [creditUser_daily, taskDebit_daily]
          omega
      · rw [if_neg h2] at hfu
        rw [← hfu]
        refine ⟨?_, ?_, ?_, ?_⟩
        · rw [taskDebit_AccountNo, taskDebit_id, hAcc, hid]
          exact hsprops.1
        · rw [taskDebit_Amount, hAm]
          omega
        · rw [taskDebit_daily]
          omega
        · rw [taskDebit_daily]
          omega
    · rw [if_neg h1] at hfu
      by_cases h2 : u.AccountNo = receiver.AccountNo
      · rw [if_pos h2] at hfu
        rw [← hfu]
        refine ⟨?_, ?_, ?_, ?_⟩
        · rw [creditUser_AccountNo, creditUser_id]; exact huprops.1
        · rw [creditUser_Amount]
          have := huprops.2.1
          omega
        · rw [creditUser_daily]; exact huprops.2.2.1
        · rw [creditUser_daily]; exact huprops.2.2.2
      · rw [if_neg h2] at hfu
        rw [← hfu]; exact huprops

theorem usersWF_task {db : DB} {sid racc a today : ℤ} {tf : Bool} {db2 : DB} {out : TaskResult}
    (h : schedule_money_transfer_task db sid racc a today tf = (db2, out))
    (hWF : UsersWF db.users) (hpos : 0 < a) : UsersWF db2.users := by
  cases hOk : out.isSuccess with
  | false => rw [task_fail h hOk]; exact hWF
  | true =>
    rcases out with e | ⟨sb, sd, rb, amt⟩ | _ <;> simp [TaskResult.isSuccess] at hOk
    obtain ⟨htf, sender, receiver, hf1, hf2, hfunds, hlimit, hamt, hsd, hdb2, hsb, hrb⟩ :=
      task_success_inv h
    subst hdb2
    exact usersWF_taskApply hWF (findById_inv hf1).1 (findByAcc_inv hf2).1 hpos hfunds hlimit

theorem runJobGo_usersWF {sid racc a today : ℤ} {transient : ℕ → Bool}
    (fuel : ℕ) (hpos : 0 < a) :
    ∀ (db : DB) (retries : ℕ) (t : ℤ), UsersWF db.users →
      UsersWF (runJobGo db sid racc a today transient fuel retries t).1.users := by
  induction fuel with
  | zero => intro db retries t hWF; exact hWF
  | succ n ih =>
    intro db retries t hWF
    simp only [runJobGo]
    rcases ht : schedule_money_transfer_task db sid racc a today (transient retries)
      with ⟨db1, out⟩
    have hdb1 : UsersWF db1.users := usersWF_task ht hWF hpos
    rcases out with e | ⟨sb, sd, rb, amt⟩ | _
    · exact hdb1
    · exact hdb1
    · dsimp only
      split
      · exact ih db1 (retries + 1) (t + retry_countdown) hdb1
      · exact hdb1

theorem reachable_wf {s : SysState} (h : Reachable s) : WF s := by
  induction h with
  | init =>
    exact ⟨⟨List.nodup_nil, by intro u hu; cases hu⟩, by intro j hj; cases hj⟩
  | seed s today _ ih =>
    refine ⟨⟨?_, ?_⟩, ih.2⟩
    · have hm : (seedUsers today).map User.id = [1, 2, 3, 4, 5, 6, 7, 8, 9, 10] := rfl
      rw [hm]; decide
    · intro u hu
      simp only [seedUsers, seedUser, List.mem_cons, List.not_mem_nil, or_false] at hu
      rcases hu with h | h | h | h | h | h | h | h | h | h <;> subst h <;>
        exact ⟨rfl, by norm_num, by norm_num [DAILY_LIMIT], le_refl _⟩
  | immediate s sid racc a today commitOk _ ih =>
    rcases hp : money_transfer s.db sid racc a today commitOk with ⟨db', out⟩
    exact ⟨usersWF_money_transfer hp ih.1, ih.2⟩
  | schedule s sid racc a d now nid _ ih =>
    refine ⟨by rw [sched_db_unchanged]; exact ih.1, ?_⟩
    rcases sched_jobs_cases s.db s.jobs sid racc a d now nid with hsame | hadd
    · dsimp only
      rw [hsame]; exact ih.2
    · obtain ⟨sender, receiver, s1, hf1, hf2, hv, hjobs⟩ := hadd
      dsimp only
      rw [hjobs]
      intro j hj
      rcases List.mem_append.mp hj with hold | hnew
      · exact ih.2 j hold
      · simp only [List.mem_singleton] at hnew
        subst hnew
        obtain ⟨hpos, hne, _, _, _⟩ := validate_none_inv hv
        obtain ⟨hsmem, hsid⟩ := findById_inv hf1
        obtain ⟨hrmem, hracc⟩ := findByAcc_inv hf2
        have hsacc := (ih.1.2 sender hsmem).1
        refine ⟨?_, ?_⟩
        · show (0 : ℤ) < a
          omega
        · show racc ≠ 1000000000 + sid
          intro hcontra
          apply hne
          omega
  | dispatch s j today transient t0 _ hj ih =>
    have hpos : 0 < j.amount := (ih.2 j hj).1
    refine ⟨?_, ?_⟩
    · exact runJobGo_usersWF _ hpos s.db 0 t0 ih.1
    · intro x hx
      exact ih.2 x (List.mem_of_mem_erase hx)

end Banking

namespace Banking

/-- Under the store's uniqueness constraints, the Celery task's chained row
mutations coincide with updating the sender row and then crediting the
receiver row, provided sender and receiver are distinct accounts. -/
theorem taskApply_eq_double {l : List User} {sender receiver : User} {s2w : User} (a : ℤ)
    (hn : (l.map User.id).Nodup)
    (haccMatch : ∀ u ∈ l, u.AccountNo = 1000000000 + u.id)
    (hs : sender ∈ l) (hr : receiver ∈ l)
    (hneacc : sender.AccountNo ≠ receiver.AccountNo)
    (hs2id : s2w.id = sender.id) (hs2acc : s2w.AccountNo = sender.AccountNo) :
    taskApply l sender.id s2w receiver.AccountNo a =
      updateUser (updateUser l s2w) (creditUser receiver a) := by
  have hidne : sender.id ≠ receiver.id := by
    intro hcontra
    apply hneacc
    rw [haccMatch sender hs, haccMatch receiver hr, hcontra]
  unfold taskApply updateUser
  rw [List.map_map]
  refine List.map_congr_left ?_
  intro u hu
  simp only [Function.comp_apply]
  by_cases h1 : u.id = sender.id
  · have e1 : updateFn s2w u = s2w := by
      unfold updateFn; rw [if_pos (by rw [h1, hs2id])]
    have e2 : updateFn (creditUser receiver a) s2w = s2w := by
      unfold updateFn
      rw [if_neg (by rw [creditUser_id, hs2id]; exact hidne)]
    rw [if_pos h1, if_neg (by rw [hs2acc]; exact hneacc), e1, e2]
  · have e1 : updateFn s2w u = u := by
      unfold updateFn; rw [if_neg (by rw [hs2id]; exact h1)]
    rw [if_neg h1, e1]
    by_cases h2 : u.AccountNo = receiver.AccountNo
    · have huid : u.id = receiver.id := by
        have hu1 := haccMatch u hu
        have hu2 := haccMatch receiver hr
        omega
      have hueq : u = receiver := nodup_map_id_inj hn hu hr huid
      have e2 : updateFn (creditUser receiver a) u = creditUser receiver a := by
        unfold updateFn; rw [if_pos (by rw [creditUser_id, huid])]
      rw [if_pos h2, e2, hueq]
    · have e2 : updateFn (creditUser receiver a) u = u := by
        unfold updateFn
        rw [if_neg ?_]
        intro hcontra
        rw [creditUser_id] at hcontra
        apply h2
        have hu1 := haccMatch u hu
        have hu2 := haccMatch receiver hr
        omega
      rw [if_neg h2, e2]

end Banking

namespace Banking

/-! ### Concrete fixtures used by witnesses and counterexamples -/

/-- A seeded-style account with full balance and allowance. -/
def alice : User := ⟨1, "alice", 1000000001, 5000, 2000, 0⟩

/-- A second distinct account. -/
def bob : User := ⟨2, "bob", 1000000002, 3000, 2000, 0⟩

/-- An account with a low balance. -/
def carl : User := ⟨3, "carl", 1000000003, 100, 2000, 0⟩

/-- An account with a stale reset date, a partially used allowance and a low
balance. -/
def dana : User := ⟨4, "dana", 1000000004, 100, 123, 0⟩

/-- A small concrete database. -/
def dbMain : DB := ⟨[alice, bob, carl, dana], []⟩

/-- The state right after seeding a fresh store on day 0. -/
def seededState : SysState := ⟨⟨seedUsers 0, []⟩, []⟩

/-- The state after additionally scheduling a 500-unit transfer from user 1 to
account 1000000002 for day 1, requested at instant 0. -/
def scheduledState : SysState := ⟨⟨seedUsers 0, []⟩, [⟨5, 1, 1000000002, 500, 86400⟩]⟩

theorem seededState_reachable : Reachable seededState :=
  Reachable.seed ⟨⟨[], []⟩, []⟩ 0 Reachable.init

theorem scheduledState_reachable : Reachable scheduledState := by
  have h := Reachable.schedule seededState 1 1000000002 500 1 0 5 seededState_reachable
  have he : (⟨(scheduled_money_transfer seededState.db seededState.jobs 1 1000000002 500
      1 0 5).1,
    (scheduled_money_transfer seededState.db seededState.jobs 1 1000000002 500
      1 0 5).2.1⟩ : SysState) = scheduledState := by decide
  exact he ▸ h

/-! ### Claim C4 -/

/-- C4: the validator checks its rejection reasons in the fixed order
InvalidAmount (amount ≤ 0), SelfTransfer (equal account numbers),
InsufficientFunds (balance below amount), DailyLimitExceeded (amount above the
post-reset remaining allowance), first match winning; in particular a
non-positive self-transfer reports InvalidAmount, not SelfTransfer. -/
theorem C4_validator_precedence :
    (∀ (sender receiver : User) (a today : ℤ), a ≤ 0 →
      validate_transfer_request sender receiver a today = (sender, some .invalidAmount)) ∧
    (∀ (sender receiver : User) (a today : ℤ), 0 < a →
      sender.AccountNo = receiver.AccountNo →
      validate_transfer_request sender receiver a today = (sender, some .selfTransfer)) ∧
    (∀ (sender receiver : User) (a today : ℤ), 0 < a →
      sender.AccountNo ≠ receiver.AccountNo → sender.Amount < a →
      validate_transfer_request sender receiver a today = (sender, some .insufficientFunds)) ∧
    (∀ (sender receiver : User) (a today : ℤ), 0 < a →
      sender.AccountNo ≠ receiver.AccountNo → ¬ sender.Amount < a →
      a > (resetDaily sender today).daily_used →
      validate_transfer_request sender receiver a today =
        (resetDaily sender today,
         some (.dailyLimitExceeded (resetDaily sender today).daily_used))) ∧
    (∀ (sender receiver : User) (a today : ℤ),
      sender.AccountNo = receiver.AccountNo → a ≤ 0 →
      (validate_transfer_request sender receiver a today).2 = some .invalidAmount) := by
  refine ⟨?_, ?_, ?_, ?_, ?_⟩
  · intro sender receiver a today h
    exact validate_invalidAmount sender receiver a today h
  · intro sender receiver a today h1 h2
    exact validate_selfTransfer sender receiver a today (not_le.mpr h1) h2
  · intro sender receiver a today h1 h2 h3
    exact validate_insufficient sender receiver a today (not_le.mpr h1) h2 h3
  · intro sender receiver a today h1 h2 h3 h4
    exact validate_dailyLimit sender receiver a today (not_le.mpr h1) h2 h3 h4
  · intro sender receiver a today hacc ha
    rw [validate_invalidAmount sender receiver a today ha]

/-- Witness for C4 at concrete inputs: a zero-amount self-transfer is
InvalidAmount, and each rejection reason fires at its place in the order. -/
theorem C4_validator_precedence_witness :
    validate_transfer_request alice bob 0 0 = (alice, some .invalidAmount) ∧
    validate_transfer_request alice alice 500 0 = (alice, some .selfTransfer) ∧
    validate_transfer_request carl alice 500 0 = (carl, some .insufficientFunds) ∧
    validate_transfer_request alice bob 2500 0 =
      (resetDaily alice 0, some (.dailyLimitExceeded (resetDaily alice 0).daily_used)) ∧
    (validate_transfer_request alice alice 0 0).2 = some .invalidAmount :=
  ⟨C4_validator_precedence.1 alice bob 0 0 (by decide),
   C4_validator_precedence.2.1 alice alice 500 0 (by decide) (by decide),
   C4_validator_precedence.2.2.1 carl alice 500 0 (by decide) (by decide) (by decide),
   C4_validator_precedence.2.2.2.1 alice bob 2500 0 (by decide) (by decide) (by decide) (by decide),
   C4_validator_precedence.2.2.2.2 alice alice 0 0 (by decide) (by decide)⟩

/-! ### Claim C8 -/

/-- A one-entry result backend holding a genuinely pending task. -/
def backend8 : List (String × TaskState) := [("job-1", TaskState.PENDING)]

/-- C8 counterexample: the id "ghost" was never issued (the backend has no
entry for it), yet the status lookup reports status "pending" with the
pending-stage message — exactly the response of the genuinely pending job
"job-1" up to the echoed id — rather than any distinct "not found" outcome. -/
theorem C8_counterexample :
    backend8.find? (fun p => decide (p.1 = "ghost")) = none ∧
    get_task_status backend8 "ghost" =
      ⟨"ghost", "pending", some "Transfer is scheduled and waiting to be executed", none, none⟩ ∧
    (get_task_status backend8 "ghost").status = (get_task_status backend8 "job-1").status ∧
    (get_task_status backend8 "ghost").message = (get_task_status backend8 "job-1").message := by
  decide

/-- C8 (amended): for every job id the backend has never stored, the status
lookup reports status "pending" together with the waiting message, identical
to a genuinely pending job; Celery has no distinct "not found" state and the
route does not add one. -/
theorem C8_unknown_id_reports_pending :
    ∀ (backend : List (String × TaskState)) (task_id : String),
      backend.find? (fun p => decide (p.1 = task_id)) = none →
      get_task_status backend task_id =
        ⟨task_id, "pending", some "Transfer is scheduled and waiting to be executed",
         none, none⟩ := by
  intro backend task_id h
  unfold get_task_status AsyncResultState
  rw [h]

/-- Witness for the amended C8 at the concrete backend. -/
theorem C8_unknown_id_reports_pending_witness :
    get_task_status backend8 "ghost" =
      ⟨"ghost", "pending", some "Transfer is scheduled and waiting to be executed",
       none, none⟩ :=
  C8_unknown_id_reports_pending backend8 "ghost" (by decide)

end Banking

namespace Banking

/-! ### Claim C5 -/

/-- C5 counterexample: validation runs for dana on day 1 with
`last_reset = 0 ≠ 1`, but the transfer is rejected as InsufficientFunds before
the reset line is reached: dana's `daily_used` stays 123 (not 2000) and her
`last_reset` stays 0 (not advanced to day 1), refuting "whenever validation
runs with last_reset different from today, daily_remaining is restored and
last_reset advances". -/
theorem C5_counterexample :
    dana.last_reset ≠ 1 ∧
    validate_transfer_request dana bob 500 1 = (dana, some .insufficientFunds) ∧
    (validate_transfer_request dana bob 500 1).1.daily_used ≠ DAILY_LIMIT ∧
    (validate_transfer_request dana bob 500 1).1.last_reset ≠ 1 := by
  decide

/-- C5 (amended): the lazy reset happens only when validation reaches the
daily-limit stage (amount, self-transfer and funds checks passed): there, on a
day different from `last_reset`, the sender record returned to the session has
`daily_used = 2000` and `last_reset = today` before the limit is checked, and
a DailyLimitExceeded rejection reports the post-reset allowance.  On a day
with `last_reset = today` the validator leaves the sender record untouched,
and neither a (same-day) immediate transfer nor a (same-day, positive-amount)
scheduled-task execution ever increases the sender's remaining allowance. -/
theorem C5_daily_reset_amended :
    (∀ (sender receiver : User) (a today : ℤ), 0 < a →
      sender.AccountNo ≠ receiver.AccountNo → ¬ sender.Amount < a →
      sender.last_reset ≠ today →
      (validate_transfer_request sender receiver a today).1.daily_used = DAILY_LIMIT ∧
      (validate_transfer_request sender receiver a today).1.last_reset = today ∧
      (a > DAILY_LIMIT →
        (validate_transfer_request sender receiver a today).2 =
          some (.dailyLimitExceeded DAILY_LIMIT))) ∧
    (∀ (sender receiver : User) (a today : ℤ), sender.last_reset = today →
      (validate_transfer_request sender receiver a today).1 = sender) ∧
    (∀ (db : DB) (sid racc a today : ℤ) (commitOk : Bool) (db' : DB)
       (out : TransferOutcome) (sender : User),
      money_transfer db sid racc a today commitOk = (db', out) →
      findById db.users sid = some sender → sender.last_reset = today →
      (db.users.map User.id).Nodup →
      ∃ s', s' ∈ db'.users ∧ s'.id = sender.id ∧ s'.daily_used ≤ sender.daily_used) ∧
    (∀ (db : DB) (sid racc a today : ℤ) (tf : Bool) (db2 : DB)
       (out : TaskResult) (sender : User),
      schedule_money_transfer_task db sid racc a today tf = (db2, out) →
      findById db.users sid = some sender → sender.last_reset = today → 0 < a →
      ∃ s', s' ∈ db2.users ∧ s'.id = sender.id ∧ s'.daily_used ≤ sender.daily_used) := by
  have hreset : ∀ (u : User) (today : ℤ), u.last_reset ≠ today →
      (resetDaily u today).daily_used = DAILY_LIMIT ∧
      (resetDaily u today).last_reset = today := by
    intro u today h
    rw [resetDaily_of_ne u today h]
    exact ⟨rfl, rfl⟩
  refine ⟨?_, ?_, ?_, ?_⟩
  · intro sender receiver a today hpos hne hfunds hstale
    by_cases hlim : a > (resetDaily sender today).daily_used
    · rw [validate_dailyLimit sender receiver a today (not_le.mpr hpos) hne hfunds hlim]
      refine ⟨(hreset sender today hstale).1, (hreset sender today hstale).2, ?_⟩
      intro _
      simp only []
      rw [(hreset sender today hstale).1]
    · rw [validate_ok sender receiver a today (not_le.mpr hpos) hne hfunds hlim]
      refine ⟨(hreset sender today hstale).1, (hreset sender today hstale).2, ?_⟩
      intro hbig
      exact absurd (by rw [(hreset sender today hstale).1]; exact hbig) hlim
  · intro sender receiver a today htoday
    by_cases h1 : a ≤ 0
    · rw [validate_invalidAmount _ _ _ _ h1]
    by_cases h2 : sender.AccountNo = receiver.AccountNo
    · rw [validate_selfTransfer _ _ _ _ h1 h2]
    by_cases h3 : sender.Amount < a
    · rw [validate_insufficient _ _ _ _ h1 h2 h3]
    by_cases h4 : a > (resetDaily sender today).daily_used
    · rw [validate_dailyLimit _ _ _ _ h1 h2 h3 h4, resetDaily_of_today _ _ htoday]
    · rw [validate_ok _ _ _ _ h1 h2 h3 h4, resetDaily_of_today _ _ htoday]
  · intro db sid racc a today commitOk db' out sender h hf1 htoday hn
    cases hOk : out.isOk with
    | false =>
      rw [money_transfer_fail h hOk]
      exact ⟨sender, (findById_inv hf1).1, rfl, le_refl _⟩
    | true =>
      rcases out with _ | _ | e | _ | ⟨sb, sd, rb⟩ <;> simp [TransferOutcome.isOk] at hOk
      obtain ⟨sender2, receiver, s2, r2, ts, tr, hf1b, hf2, he, hdb', _, _, _⟩ :=
        money_transfer_ok_inv h
      rw [hf1] at hf1b
      injection hf1b with hseq
      subst hseq
      obtain ⟨_, s1, hv, hs2, hr2, _, _⟩ := execute_ok_inv he
      obtain ⟨hpos, hne, hfunds, hs1, hlimit⟩ := validate_none_inv hv
      have hs1e : s1 = sender := by rw [hs1, resetDaily_of_today sender today htoday]
      have hs2id : s2.id = sender.id := by rw [hs2, hs1e]
      have hs2du : s2.daily_used = sender.daily_used - a := by rw [hs2, hs1e]
      have hr2id : r2.id = receiver.id := by rw [hr2]
      have hidne : sender.id ≠ receiver.id := by
        intro hcontra
        have := nodup_map_id_inj hn (findById_inv hf1).1 (findByAcc_inv hf2).1 hcontra
        rw [this] at hne
        exact hne rfl
      subst hdb'
      refine ⟨s2, ?_, hs2id, by omega⟩
      refine mem_updateUser_of_ne _ _ _ ?_ ?_
      · exact mem_updateUser_self _ _ sender (findById_inv hf1).1 hs2id.symm
      · rw [hs2id, hr2id]
        exact hidne
  · intro db sid racc a today tf db2 out sender h hf1 htoday hpos
    cases hOk : out.isSuccess with
    | false =>
      rw [task_fail h hOk]
      exact ⟨sender, (findById_inv hf1).1, rfl, le_refl _⟩
    | true =>
      rcases out with e | ⟨sb, sd, rb, amt⟩ | _ <;> simp [TaskResult.isSuccess] at hOk
      obtain ⟨htf, sender2, receiver, hf1b, hf2, hfunds, hlimit, hamt, hsd, hdb2, hsb, hrb⟩ :=
        task_success_inv h
      rw [hf1] at hf1b
      injection hf1b with hseq
      subst hseq
      subst hdb2
      refine ⟨(if (taskDebit (resetDaily sender today) a).AccountNo = receiver.AccountNo
        then creditUser (taskDebit (resetDaily sender today) a) a
        else taskDebit (resetDaily sender today) a), ?_, ?_, ?_⟩
      · unfold taskApply
        have hmem := List.mem_map_of_mem (fun u =>
          let u1 := if u.id = sender.id then taskDebit (resetDaily sender today) a else u
          if u1.AccountNo = receiver.AccountNo then creditUser u1 a else u1)
          (findById_inv hf1).1
        simp only [if_pos rfl] at hmem
        exact hmem
      · split
        · rw [creditUser_id, taskDebit_id, resetDaily_id]
        · rw [taskDebit_id, resetDaily_id]
      · rw [resetDaily_of_today sender today htoday]
        split
        · rw [creditUser_daily, taskDebit_daily]
          omega
        · rw [taskDebit_daily]
          omega

/-- Witness for the amended C5 at concrete inputs: on day 1 alice's record
(stale since day 0) is reset before the limit check of a 2500-unit transfer
and the rejection reports the post-reset allowance 2000; on day 0 validation
leaves alice untouched; a same-day immediate transfer and a same-day task run
leave her remaining allowance no larger. -/
theorem C5_daily_reset_amended_witness :
    ((validate_transfer_request alice bob 2500 1).1.daily_used = DAILY_LIMIT ∧
     (validate_transfer_request alice bob 2500 1).1.last_reset = 1 ∧
     (2500 > DAILY_LIMIT →
       (validate_transfer_request alice bob 2500 1).2 =
         some (.dailyLimitExceeded DAILY_LIMIT))) ∧
    (validate_transfer_request alice bob 500 0).1 = alice ∧
    (∃ s', s' ∈ (money_transfer dbMain 1 1000000002 500 0 true).1.users ∧
      s'.id = alice.id ∧ s'.daily_used ≤ alice.daily_used) ∧
    (∃ s', s' ∈ (schedule_money_transfer_task dbMain 1 1000000002 500 0 false).1.users ∧
      s'.id = alice.id ∧ s'.daily_used ≤ alice.daily_used) := by
  refine ⟨?_, ?_, ?_, ?_⟩
  · exact C5_daily_reset_amended.1 alice bob 2500 1 (by decide) (by decide) (by decide) (by decide)
  · exact C5_daily_reset_amended.2.1 alice bob 500 0 (by decide)
  · exact C5_daily_reset_amended.2.2.1 dbMain 1 1000000002 500 0 true
      (money_transfer dbMain 1 1000000002 500 0 true).1
      (money_transfer dbMain 1 1000000002 500 0 true).2 alice
      rfl (by decide) (by decide) (by decide)
  · exact C5_daily_reset_amended.2.2.2 dbMain 1 1000000002 500 0 false
      (schedule_money_transfer_task dbMain 1 1000000002 500 0 false).1
      (schedule_money_transfer_task dbMain 1 1000000002 500 0 false).2 alice
      rfl (by decide) (by decide) (by decide)

/-! ### Claim C3 -/

/-- C3: a transfer call that does not succeed — any validation rejection or a
storage write failure on the immediate path, and any failed or aborted attempt
of the scheduled task — leaves the committed store exactly as before the
call (both balances, the sender's remaining allowance, and the ledger), and
the call returns the distinct failure outcome rather than swallowing it. -/
theorem C3_failed_transfers_no_effect :
    (∀ (db : DB) (sid racc a today : ℤ) (commitOk : Bool) (db' : DB)
       (out : TransferOutcome),
      money_transfer db sid racc a today commitOk = (db', out) →
      out.isOk = false →
      db' = db ∧ db'.users = db.users ∧ db'.txns = db.txns) ∧
    (∀ (db : DB) (sid racc a today : ℤ) (tf : Bool) (db2 : DB) (out : TaskResult),
      schedule_money_transfer_task db sid racc a today tf = (db2, out) →
      out.isSuccess = false →
      db2 = db ∧ db2.users = db.users ∧ db2.txns = db.txns) := by
  constructor
  · intro db sid racc a today commitOk db' out h hno
    have hdb := money_transfer_fail h hno
    exact ⟨hdb, by rw [hdb], by rw [hdb]⟩
  · intro db sid racc a today tf db2 out h hno
    have hdb := task_fail h hno
    exact ⟨hdb, by rw [hdb], by rw [hdb]⟩

/-- Witness for C3: a rejected zero-amount transfer, a storage-failure abort,
and a failed task attempt each leave the concrete store untouched. -/
theorem C3_failed_transfers_no_effect_witness :
    ((money_transfer dbMain 1 1000000002 0 0 true).1 = dbMain ∧
     (money_transfer dbMain 1 1000000002 0 0 true).1.users = dbMain.users ∧
     (money_transfer dbMain 1 1000000002 0 0 true).1.txns = dbMain.txns) ∧
    ((money_transfer dbMain 1 1000000002 500 0 false).1 = dbMain ∧
     (money_transfer dbMain 1 1000000002 500 0 false).1.users = dbMain.users ∧
     (money_transfer dbMain 1 1000000002 500 0 false).1.txns = dbMain.txns) ∧
    ((schedule_money_transfer_task dbMain 3 1000000002 500 0 false).1 = dbMain ∧
     (schedule_money_transfer_task dbMain 3 1000000002 500 0 false).1.users = dbMain.users ∧
     (schedule_money_transfer_task dbMain 3 1000000002 500 0 false).1.txns = dbMain.txns) := by
  refine ⟨?_, ?_, ?_⟩
  · exact C3_failed_transfers_no_effect.1 dbMain 1 1000000002 0 0 true
      (money_transfer dbMain 1 1000000002 0 0 true).1
      (money_transfer dbMain 1 1000000002 0 0 true).2 rfl (by decide)
  · exact C3_failed_transfers_no_effect.1 dbMain 1 1000000002 500 0 false
      (money_transfer dbMain 1 1000000002 500 0 false).1
      (money_transfer dbMain 1 1000000002 500 0 false).2 rfl (by decide)
  · exact C3_failed_transfers_no_effect.2 dbMain 3 1000000002 500 0 false
      (schedule_money_transfer_task dbMain 3 1000000002 500 0 false).1
      (schedule_money_transfer_task dbMain 3 1000000002 500 0 false).2 rfl (by decide)

end Banking

namespace Banking

/-! ### Claim C7 -/

/-- C7 counterexample, two scenarios.  (a) Carl (balance 100) asks to schedule
500 units to bob for day 2 at instant 0: the amount is positive, the accounts
differ, and the eta (midnight of day 2) is strictly in the future, yet the
request is rejected with InsufficientFunds and no job is created — the full
validator runs at schedule time, not only the static checks the claim lists.
(b) Alice schedules 500 units for day 1 at instant 86400 — exactly the eta, so
the eta is NOT strictly in the future — yet the code's strict-less-than test
accepts and persists a job. -/
theorem C7_counterexample :
    ((0 : ℤ) < 500 ∧ carl.AccountNo ≠ bob.AccountNo ∧ (0 : ℤ) < midnightOf 2 ∧
     scheduled_money_transfer dbMain [] 3 1000000002 500 2 0 7 =
       (dbMain, [], .rejected .insufficientFunds)) ∧
    (¬ (86400 : ℤ) < midnightOf 1 ∧
     scheduled_money_transfer dbMain [] 1 1000000002 500 1 86400 7 =
       (dbMain, [⟨7, 1, 1000000002, 500, 86400⟩], .scheduled 7)) := by
  decide

/-- C7 (amended): the scheduling endpoint, with both accounts found, runs the
full validator (InvalidAmount, SelfTransfer, InsufficientFunds,
DailyLimitExceeded) and rejects — creating no job — on any validation
failure, then rejects — creating no job — when the eta (midnight of the
scheduled date) is strictly before the current instant; when validation
passes and the eta is not strictly in the past, a job with the request's
payload is persisted and its task id is returned. -/
theorem C7_schedule_endpoint :
    (∀ (db : DB) (jobs : List TransferJob) (sid racc a d now : ℤ) (nid : ℕ)
       (sender receiver s1 : User) (e : TransferError),
      findById db.users sid = some sender → findByAcc db.users racc = some receiver →
      validate_transfer_request sender receiver a (dayOf now) = (s1, some e) →
      scheduled_money_transfer db jobs sid racc a d now nid = (db, jobs, .rejected e)) ∧
    (∀ (db : DB) (jobs : List TransferJob) (sid racc a d now : ℤ) (nid : ℕ)
       (sender receiver s1 : User),
      findById db.users sid = some sender → findByAcc db.users racc = some receiver →
      validate_transfer_request sender receiver a (dayOf now) = (s1, none) →
      midnightOf d < now →
      scheduled_money_transfer db jobs sid racc a d now nid = (db, jobs, .dateNotFuture)) ∧
    (∀ (db : DB) (jobs : List TransferJob) (sid racc a d now : ℤ) (nid : ℕ)
       (sender receiver s1 : User),
      findById db.users sid = some sender → findByAcc db.users racc = some receiver →
      validate_transfer_request sender receiver a (dayOf now) = (s1, none) →
      ¬ midnightOf d < now →
      scheduled_money_transfer db jobs sid racc a d now nid =
        (db, jobs ++ [⟨nid, sid, racc, a, midnightOf d⟩], .scheduled nid)) := by
  refine ⟨?_, ?_, ?_⟩
  · intro db jobs sid racc a d now nid sender receiver s1 e hf1 hf2 hv
    exact sched_rejected jobs d nid hf1 hf2 hv
  · intro db jobs sid racc a d now nid sender receiver s1 hf1 hf2 hv hpast
    exact sched_dateNotFuture jobs nid hf1 hf2 hv hpast
  · intro db jobs sid racc a d now nid sender receiver s1 hf1 hf2 hv hfut
    exact sched_scheduled jobs nid hf1 hf2 hv hfut

/-- Witness for the amended C7: a failing validation rejects with no job, a
past eta rejects with no job, and a clean request persists exactly one job
and returns its id. -/
theorem C7_schedule_endpoint_witness :
    scheduled_money_transfer dbMain [] 3 1000000002 500 2 0 7 =
      (dbMain, [], .rejected .insufficientFunds) ∧
    scheduled_money_transfer dbMain [] 1 1000000002 500 (-1) 0 7 =
      (dbMain, [], .dateNotFuture) ∧
    scheduled_money_transfer dbMain [] 1 1000000002 500 2 0 7 =
      (dbMain, [⟨7, 1, 1000000002, 500, midnightOf 2⟩], .scheduled 7) :=
  ⟨C7_schedule_endpoint.1 dbMain [] 3 1000000002 500 2 0 7 carl bob carl
      .insufficientFunds (by decide) (by decide) (by decide),
   C7_schedule_endpoint.2.1 dbMain [] 1 1000000002 500 (-1) 0 7 alice bob alice
      (by decide) (by decide) (by decide) (by decide),
   C7_schedule_endpoint.2.2 dbMain [] 1 1000000002 500 2 0 7 alice bob alice
      (by decide) (by decide) (by decide) (by decide)⟩

/-! ### Claim C2 -/

/-- C2 counterexample: a transfer dispatched through the scheduled path
completes successfully (alice sends 500 to bob) yet writes no ledger entries
at all — the transactions table stays empty — refuting "every completed
transfer, through either path, creates exactly two ledger entries". -/
theorem C2_counterexample :
    (schedule_money_transfer_task dbMain 1 1000000002 500 0 false).2 =
      .success 4500 1500 3500 500 ∧
    (schedule_money_transfer_task dbMain 1 1000000002 500 0 false).1.txns = [] := by
  decide

/-- C2 (amended): every completed immediate transfer appends exactly two
ledger entries — a debit of −a for the sender and a credit of +a for the
receiver, additive inverses, carrying the two account identities — and no
other entries; a completed scheduled transfer writes no ledger entries at
all. -/
theorem C2_ledger_pairing :
    (∀ (db : DB) (sid racc a today : ℤ) (commitOk : Bool) (db' : DB) (sb sd rb : ℤ),
      money_transfer db sid racc a today commitOk = (db', .ok sb sd rb) →
      ∃ sender receiver,
        findById db.users sid = some sender ∧ findByAcc db.users racc = some receiver ∧
        db'.txns = db.txns ++
          [⟨sender.id, sender.AccountNo, -a, "debit"⟩,
           ⟨receiver.id, receiver.AccountNo, a, "credit"⟩] ∧
        (-a) + a = 0) ∧
    (∀ (db : DB) (sid racc a today : ℤ) (tf : Bool) (db2 : DB) (sb sd rb amt : ℤ),
      schedule_money_transfer_task db sid racc a today tf = (db2, .success sb sd rb amt) →
      db2.txns = db.txns) := by
  constructor
  · intro db sid racc a today commitOk db' sb sd rb h
    obtain ⟨sender, receiver, s2, r2, ts, tr, hf1, hf2, he, hdb', _, _, _⟩ :=
      money_transfer_ok_inv h
    obtain ⟨_, s1, hv, hs2, hr2, hts, htr⟩ := execute_ok_inv he
    obtain ⟨_, _, _, hs1, _⟩ := validate_none_inv hv
    have hts' : ts = ⟨sender.id, sender.AccountNo, -a, "debit"⟩ := by
      rw [hts, hs1, resetDaily_id, resetDaily_AccountNo]
    refine ⟨sender, receiver, hf1, hf2, ?_, by ring⟩
    rw [hdb', ← hts', ← htr]
  · intro db sid racc a today tf db2 sb sd rb amt h
    have := task_txns db sid racc a today tf
    rw [h] at this
    exact this

/-- Witness for the amended C2: the concrete immediate transfer writes exactly
the debit/credit pair, and the concrete scheduled execution writes nothing. -/
theorem C2_ledger_pairing_witness :
    (∃ sender receiver,
      findById dbMain.users 1 = some sender ∧ findByAcc dbMain.users 1000000002 = some receiver ∧
      (money_transfer dbMain 1 1000000002 500 0 true).1.txns = dbMain.txns ++
        [⟨sender.id, sender.AccountNo, -500, "debit"⟩,
         ⟨receiver.id, receiver.AccountNo, 500, "credit"⟩] ∧
      (-500 : ℤ) + 500 = 0) ∧
    (schedule_money_transfer_task dbMain 1 1000000002 500 0 false).1.txns = dbMain.txns :=
  ⟨C2_ledger_pairing.1 dbMain 1 1000000002 500 0 true
      (money_transfer dbMain 1 1000000002 500 0 true).1 4500 1500 3500 (by decide),
   C2_ledger_pairing.2 dbMain 1 1000000002 500 0 false
      (schedule_money_transfer_task dbMain 1 1000000002 500 0 false).1 4500 1500 3500 500
      (by decide)⟩

end Banking

namespace Banking

/-- When both lookups succeed and the funds and (post-reset) daily-limit
checks pass, the Celery task body commits the mutation and returns the
success dict — there is no amount or self-transfer check on this path. -/
theorem task_runs {db : DB} {sid racc a today : ℤ} {sender receiver : User}
    (hf1 : findById db.users sid = some sender) (hf2 : findByAcc db.users racc = some receiver)
    (hfunds : ¬ sender.Amount < a) (hlimit : ¬ a > (resetDaily sender today).daily_used) :
    schedule_money_transfer_task db sid racc a today false =
      (⟨taskApply db.users sender.id (taskDebit (resetDaily sender today) a)
          receiver.AccountNo a, db.txns⟩,
       .success
         (if sender.AccountNo = receiver.AccountNo
          then sender.Amount - a + a else sender.Amount - a)
         ((resetDaily sender today).daily_used - a)
         (if sender.AccountNo = receiver.AccountNo
          then sender.Amount - a + a else receiver.Amount + a)
         a) := by
  unfold schedule_money_transfer_task
  rw [if_neg (by decide)]
  rw [hf1]
  dsimp only
  rw [hf2]
  dsimp only
  rw [if_neg hfunds]
  rw [if_neg hlimit]
  rw [taskDebit_AccountNo, resetDaily_AccountNo, taskDebit_Amount, resetDaily_Amount,
    taskDebit_daily]

/-! ### Claim C10 -/

/-- C10: the scheduled-execution task re-checks only existence, funds and the
daily limit.  With both accounts found and the account state satisfying the
store invariants (non-negative balance and allowance), a non-positive amount
to a distinct receiver is not rejected as InvalidAmount: the task applies the
mutation and reports success, increasing the sender's balance and decreasing
the receiver's when the amount is negative; and a transfer whose sender and
receiver are the same account (equal account numbers, so the two lookups hit
the same row) is not rejected as SelfTransfer: it reports success with the
sender's balance unchanged (debit and credit chain on the one row). -/
theorem C10_dispatch_skips_static_checks :
    ∀ (db : DB) (sid racc a today : ℤ) (sender receiver : User),
      findById db.users sid = some sender → findByAcc db.users racc = some receiver →
      0 ≤ sender.Amount → 0 ≤ sender.daily_used →
      ((a ≤ 0 → sender.AccountNo ≠ receiver.AccountNo →
        schedule_money_transfer_task db sid racc a today false =
          (⟨taskApply db.users sender.id (taskDebit (resetDaily sender today) a)
              receiver.AccountNo a, db.txns⟩,
           .success (sender.Amount - a) ((resetDaily sender today).daily_used - a)
             (receiver.Amount + a) a) ∧
        (a < 0 → sender.Amount < sender.Amount - a ∧ receiver.Amount + a < receiver.Amount)) ∧
       (sender.AccountNo = receiver.AccountNo → ¬ sender.Amount < a →
        ¬ a > (resetDaily sender today).daily_used →
        schedule_money_transfer_task db sid racc a today false =
          (⟨taskApply db.users sender.id (taskDebit (resetDaily sender today) a)
              receiver.AccountNo a, db.txns⟩,
           .success sender.Amount ((resetDaily sender today).daily_used - a)
             sender.Amount a))) := by
  intro db sid racc a today sender receiver hf1 hf2 hbal hdaily
  have hld : 0 ≤ (resetDaily sender today).daily_used := by
    unfold resetDaily
    split
    · norm_num [DAILY_LIMIT]
    · exact hdaily
  constructor
  · intro ha hne
    have hfunds : ¬ sender.Amount < a := by omega
    have hlimit : ¬ a > (resetDaily sender today).daily_used := by omega
    refine ⟨?_, by omega⟩
    rw [task_runs hf1 hf2 hfunds hlimit]
    simp only [if_neg hne]
  · intro hacc hfunds hlimit
    rw [task_runs hf1 hf2 hfunds hlimit]
    simp only [if_pos hacc]
    have harith : sender.Amount - a + a = sender.Amount := by ring
    rw [harith]

/-- Witness for C10: a negative-amount job (−100 from alice to bob) reports
success and moves money backwards, raising the reported remaining allowance
to 2100; a 500-unit self-transfer on alice's own account number reports
success with her balance unchanged. -/
theorem C10_dispatch_skips_static_checks_witness :
    (schedule_money_transfer_task dbMain 1 1000000002 (-100) 0 false =
      (⟨taskApply dbMain.users alice.id (taskDebit (resetDaily alice 0) (-100))
          bob.AccountNo (-100), dbMain.txns⟩,
       .success (alice.Amount - (-100)) ((resetDaily alice 0).daily_used - (-100))
         (bob.Amount + (-100)) (-100)) ∧
     (alice.Amount < alice.Amount - (-100) ∧ bob.Amount + (-100) < bob.Amount)) ∧
    schedule_money_transfer_task dbMain 1 1000000001 500 0 false =
      (⟨taskApply dbMain.users alice.id (taskDebit (resetDaily alice 0) 500)
          alice.AccountNo 500, dbMain.txns⟩,
       .success alice.Amount ((resetDaily alice 0).daily_used - 500) alice.Amount 500) := by
  have h1 := (C10_dispatch_skips_static_checks dbMain 1 1000000002 (-100) 0 alice bob
    (by decide) (by decide) (by decide) (by decide)).1 (by decide) (by decide)
  have h2 := (C10_dispatch_skips_static_checks dbMain 1 1000000001 500 0 alice alice
    (by decide) (by decide) (by decide) (by decide)).2 (by decide) (by decide) (by decide)
  exact ⟨⟨h1.1, h1.2 (by decide)⟩, h2⟩

end Banking

namespace Banking

/-! ### Celery retry-loop lemmas -/

theorem runJobGo_retries_bound {sid racc a today : ℤ} {transient : ℕ → Bool} :
    ∀ (fuel : ℕ) (db : DB) (retries : ℕ) (t : ℤ), retries ≤ celery_max_retries →
      (runJobGo db sid racc a today transient fuel retries t).2.2.1 ≤ celery_max_retries := by
  intro fuel
  induction fuel with
  | zero => intro db retries t h; exact h
  | succ n ih =>
    intro db retries t h
    simp only [runJobGo]
    rcases ht : schedule_money_transfer_task db sid racc a today (transient retries)
      with ⟨db1, out⟩
    rcases out with e | ⟨sb, sd, rb, amt⟩ | _
    · exact h
    · exact h
    · dsimp only
      split
      · rename_i hlt
        exact ih db1 (retries + 1) (t + retry_countdown) hlt
      · exact h

theorem runJobGo_time {sid racc a today : ℤ} {transient : ℕ → Bool} :
    ∀ (fuel : ℕ) (db : DB) (retries : ℕ) (t : ℤ),
      (runJobGo db sid racc a today transient fuel retries t).2.2.2 =
        t + retry_countdown *
          (((runJobGo db sid racc a today transient fuel retries t).2.2.1 : ℤ) - retries) := by
  intro fuel
  induction fuel with
  | zero => intro db retries t; simp only [runJobGo]; ring
  | succ n ih =>
    intro db retries t
    simp only [runJobGo]
    rcases ht : schedule_money_transfer_task db sid racc a today (transient retries)
      with ⟨db1, out⟩
    rcases out with e | ⟨sb, sd, rb, amt⟩ | _
    · dsimp only; ring
    · dsimp only; ring
    · dsimp only
      split
      · rw [ih db1 (retries + 1) (t + retry_countdown)]
        push_cast
        ring
      · dsimp only; ring

theorem runJobGo_allTransient {db : DB} {sid racc a today : ℤ} {transient : ℕ → Bool}
    (h : ∀ n, transient n = true) :
    ∀ (fuel retries : ℕ) (t : ℤ), retries ≤ celery_max_retries →
      retries + fuel = celery_max_retries + 1 →
      runJobGo db sid racc a today transient fuel retries t =
        (db, .exhausted, celery_max_retries,
         t + retry_countdown * ((celery_max_retries : ℤ) - retries)) := by
  intro fuel
  induction fuel with
  | zero => intro retries t hle hsum; omega
  | succ n ih =>
    intro retries t hle hsum
    simp only [runJobGo]
    have e : schedule_money_transfer_task db sid racc a today (transient retries) =
        (db, .transient) := by
      rw [h retries]; rfl
    rw [e]
    dsimp only
    by_cases hlt : retries < celery_max_retries
    · rw [if_pos hlt]
      rw [ih (retries + 1) (t + retry_countdown) (by omega) (by omega)]
      refine congrArg (Prod.mk db) (congrArg (Prod.mk JobFinal.exhausted)
        (congrArg (Prod.mk celery_max_retries) ?_))
      push_cast
      ring
    · rw [if_neg hlt]
      have hr : retries = celery_max_retries := by omega
      subst hr
      refine congrArg (Prod.mk db) (congrArg (Prod.mk JobFinal.exhausted)
        (congrArg (Prod.mk celery_max_retries) ?_))
      ring

/-! ### Claim C6 -/

/-- C6 counterexample: a job whose first three executions hit a transient
error and whose fourth runs clean.  The code retries three times (retry
counter of the final attempt is 3, so attempts number four in total) and the
job SUCCEEDS on that fourth attempt — under the claim, at most 3 attempts
happen and the job would already have failed. -/
theorem C6_counterexample :
    (runJob dbMain 1 1000000002 500 0 (fun n => decide (n < 3)) 0).2.2.1 = 3 ∧
    (runJob dbMain 1 1000000002 500 0 (fun n => decide (n < 3)) 0).2.1.isTerminalFailure
      = false ∧
    (runJob dbMain 1 1000000002 500 0 (fun n => decide (n < 3)) 0).2.1 =
      .succeeded 4500 1500 3500 500 := by
  decide

/-- C6 (amended): the task decorator's `max_retries=3` allows three RETRIES
after the first execution, i.e. up to four attempts in total: the retry
counter never exceeds 3; consecutive attempts are spaced by the fixed
60-time-unit countdown (the last attempt runs at `t0 + 60 * retries`); when
every attempt raises a transient error, all four run and the job ends failed
with the last error recorded (retries exhausted); and a validation failure
returned by the task body (insufficient funds, limit exceeded, account not
found) is terminal on the very first attempt — it is never retried. -/
theorem C6_retry_policy :
    (∀ (db : DB) (sid racc a today : ℤ) (transient : ℕ → Bool) (t0 : ℤ),
      (runJob db sid racc a today transient t0).2.2.1 ≤ celery_max_retries) ∧
    (∀ (db : DB) (sid racc a today : ℤ) (transient : ℕ → Bool) (t0 : ℤ),
      (runJob db sid racc a today transient t0).2.2.2 =
        t0 + retry_countdown * ((runJob db sid racc a today transient t0).2.2.1 : ℤ)) ∧
    (∀ (db : DB) (sid racc a today : ℤ) (transient : ℕ → Bool) (t0 : ℤ),
      (∀ n, transient n = true) →
      runJob db sid racc a today transient t0 =
        (db, .exhausted, celery_max_retries,
         t0 + retry_countdown * (celery_max_retries : ℤ))) ∧
    (∀ (db : DB) (sid racc a today : ℤ) (transient : ℕ → Bool) (t0 : ℤ)
       (db2 : DB) (e : String),
      transient 0 = false →
      schedule_money_transfer_task db sid racc a today false = (db2, .failed e) →
      runJob db sid racc a today transient t0 = (db2, .failed e, 0, t0)) := by
  refine ⟨?_, ?_, ?_, ?_⟩
  · intro db sid racc a today transient t0
    exact runJobGo_retries_bound (celery_max_retries + 1) db 0 t0 (by omega)
  · intro db sid racc a today transient t0
    unfold runJob
    rw [runJobGo_time (celery_max_retries + 1) db 0 t0]
    norm_num
  · intro db sid racc a today transient t0 h
    have hrun := @runJobGo_allTransient db sid racc a today transient h
      (celery_max_retries + 1) 0 t0 (by omega) (by omega)
    unfold runJob
    rw [hrun]
    norm_num
  · intro db sid racc a today transient t0 db2 e htr htask
    rw [runJob]
    simp only [runJobGo]
    rw [htr, htask]

/-- Witness for the amended C6 at concrete inputs: the all-transient run makes
exactly four attempts and fails at t0 + 180; the insufficient-funds job fails
terminally on attempt 0 with no retry. -/
theorem C6_retry_policy_witness :
    (runJob dbMain 1 1000000002 500 0 (fun _ => true) 0).2.2.1 ≤ celery_max_retries ∧
    (runJob dbMain 1 1000000002 500 0 (fun _ => true) 0).2.2.2 =
      0 + retry_countdown * ((runJob dbMain 1 1000000002 500 0 (fun _ => true) 0).2.2.1 : ℤ) ∧
    runJob dbMain 1 1000000002 500 0 (fun _ => true) 0 =
      (dbMain, .exhausted, celery_max_retries, 0 + retry_countdown * (celery_max_retries : ℤ)) ∧
    runJob dbMain 3 1000000002 500 0 (fun _ => false) 0 =
      (dbMain, .failed "Insufficient funds", 0, 0) :=
  ⟨C6_retry_policy.1 dbMain 1 1000000002 500 0 (fun _ => true) 0,
   C6_retry_policy.2.1 dbMain 1 1000000002 500 0 (fun _ => true) 0,
   C6_retry_policy.2.2.1 dbMain 1 1000000002 500 0 (fun _ => true) 0 (fun _ => rfl),
   C6_retry_policy.2.2.2 dbMain 3 1000000002 500 0 (fun _ => false) 0 dbMain
     "Insufficient funds" rfl (by decide)⟩

end Banking

namespace Banking

/-! ### Claim C9 -/

/-- C9: every account state reachable through the public operations (seeding,
immediate transfers, scheduling, dispatching persisted jobs through the retry
loop) has a non-negative balance and a remaining daily allowance of at most
the standing limit 2000. -/
theorem C9_reachable_invariants :
    ∀ (st : SysState), Reachable st →
      ∀ u ∈ st.db.users, 0 ≤ u.Amount ∧ u.daily_used ≤ DAILY_LIMIT := by
  intro st h u hu
  have hWF := reachable_wf h
  exact ⟨(hWF.1.2 u hu).2.1, (hWF.1.2 u hu).2.2.2⟩

/-- Witness for C9 at the concrete reachable seeded state and its first
account. -/
theorem C9_reachable_invariants_witness :
    0 ≤ (seedUser 1 0).Amount ∧ (seedUser 1 0).daily_used ≤ DAILY_LIMIT :=
  C9_reachable_invariants seededState seededState_reachable (seedUser 1 0) (by decide)

end Banking

namespace Banking

/-! ### Claim C1 -/

/-- C1: money conservation.  For every successful immediate transfer against a
store with unique primary keys, and for every successful dispatch of a
persisted scheduled job from a reachable system state, the sender's row loses
exactly the amount, the receiver's row gains exactly the amount (both in the
response summary and in the committed rows), rows of all other accounts are
carried over untouched, and the sum of all balances in the store is unchanged. -/
theorem C1_conservation :
    (∀ (db : DB) (sid racc a today : ℤ) (commitOk : Bool) (db' : DB) (sb sd rb : ℤ),
      (db.users.map User.id).Nodup →
      money_transfer db sid racc a today commitOk = (db', .ok sb sd rb) →
      ∃ sender receiver,
        findById db.users sid = some sender ∧ findByAcc db.users racc = some receiver ∧
        sb = sender.Amount - a ∧ rb = receiver.Amount + a ∧
        (∃ s', s' ∈ db'.users ∧ s'.id = sender.id ∧ s'.Amount = sender.Amount - a) ∧
        (∃ r', r' ∈ db'.users ∧ r'.id = receiver.id ∧ r'.Amount = receiver.Amount + a) ∧
        (∀ x ∈ db.users, x.id ≠ sender.id → x.id ≠ receiver.id → x ∈ db'.users) ∧
        balanceSum db'.users = balanceSum db.users) ∧
    (∀ (st : SysState) (j : TransferJob) (today : ℤ) (db2 : DB) (sb sd rb amt : ℤ),
      Reachable st → j ∈ st.jobs →
      schedule_money_transfer_task st.db j.sender_id j.receiver_account j.amount today false =
        (db2, .success sb sd rb amt) →
      ∃ sender receiver,
        findById st.db.users j.sender_id = some sender ∧
        findByAcc st.db.users j.receiver_account = some receiver ∧
        amt = j.amount ∧ sb = sender.Amount - j.amount ∧ rb = receiver.Amount + j.amount ∧
        (∃ s', s' ∈ db2.users ∧ s'.id = sender.id ∧ s'.Amount = sender.Amount - j.amount) ∧
        (∃ r', r' ∈ db2.users ∧ r'.id = receiver.id ∧ r'.Amount = receiver.Amount + j.amount) ∧
        (∀ x ∈ st.db.users, x.id ≠ sender.id → x.id ≠ receiver.id → x ∈ db2.users) ∧
        balanceSum db2.users = balanceSum st.db.users) := by
  constructor
  · intro db sid racc a today commitOk db' sb sd rb hn h
    obtain ⟨sender, receiver, s2, r2, ts, tr, hf1, hf2, he, hdb', hsb, hsd, hrb⟩ :=
      money_transfer_ok_inv h
    obtain ⟨_, s1, hv, hs2, hr2, _, _⟩ := execute_ok_inv he
    obtain ⟨hpos, hne, hfunds, hs1, hlimit⟩ := validate_none_inv hv
    have hs1id : s1.id = sender.id := by rw [hs1, resetDaily_id]
    have hs1am : s1.Amount = sender.Amount := by rw [hs1, resetDaily_Amount]
    have hs2id : s2.id = sender.id := by rw [hs2, hs1id]
    have hs2am : s2.Amount = sender.Amount - a := by rw [hs2, hs1am]
    have hr2id : r2.id = receiver.id := by rw [hr2]
    have hr2am : r2.Amount = receiver.Amount + a := by rw [hr2]
    have hsmem := (findById_inv hf1).1
    have hrmem := (findByAcc_inv hf2).1
    have hidne : sender.id ≠ receiver.id := by
      intro hcontra
      have := nodup_map_id_inj hn hsmem hrmem hcontra
      rw [this] at hne
      exact hne rfl
    have hn2 : ((updateUser db.users s2).map User.id).Nodup := by
      rw [updateUser_map_id]; exact hn
    have hs2mem1 : s2 ∈ updateUser db.users s2 :=
      mem_updateUser_self _ _ sender hsmem hs2id.symm
    have hrmem1 : receiver ∈ updateUser db.users s2 := by
      refine mem_updateUser_of_ne _ _ _ hrmem ?_
      rw [hs2id]
      exact fun hc => hidne hc.symm
    subst hdb'
    refine ⟨sender, receiver, hf1, hf2, by rw [hsb, hs2am], by rw [hrb, hr2am],
      ⟨s2, ?_, hs2id, hs2am⟩, ⟨r2, ?_, hr2id, hr2am⟩, ?_, ?_⟩
    · refine mem_updateUser_of_ne _ _ _ hs2mem1 ?_
      rw [hs2id, hr2id]
      exact hidne
    · exact mem_updateUser_self _ _ receiver hrmem1 hr2id.symm
    · intro x hx hxs hxr
      refine mem_updateUser_of_ne _ _ _ (mem_updateUser_of_ne _ _ _ hx ?_) ?_
      · rw [hs2id]; exact hxs
      · rw [hr2id]; exact hxr
    · have h1 := balanceSum_updateUser db.users s2 sender hn hsmem hs2id
      have h2 := balanceSum_updateUser (updateUser db.users s2) r2 receiver hn2 hrmem1 hr2id
      show balanceSum (updateUser (updateUser db.users s2) r2) = balanceSum db.users
      rw [h2, h1, hs2am, hr2am]
      ring
  · intro st j today db2 sb sd rb amt hreach hjmem htask
    have hWF := reachable_wf hreach
    have hn : (st.db.users.map User.id).Nodup := hWF.1.1
    have haccMatch : ∀ u ∈ st.db.users, u.AccountNo = 1000000000 + u.id :=
      fun u hu => (hWF.1.2 u hu).1
    obtain ⟨hjpos, hjne⟩ := hWF.2 j hjmem
    obtain ⟨htf, sender, receiver, hf1, hf2, hfunds, hlimit, hamt, hsd, hdb2, hsb, hrb⟩ :=
      task_success_inv htask
    have hsmem := (findById_inv hf1).1
    have hsid := (findById_inv hf1).2
    have hrmem := (findByAcc_inv hf2).1
    have hracc := (findByAcc_inv hf2).2
    have hsacc : sender.AccountNo = 1000000000 + sender.id := haccMatch sender hsmem
    have hneacc : sender.AccountNo ≠ receiver.AccountNo := by
      rw [hsacc, hsid, hracc]
      exact hjne.symm
    have hidne : sender.id ≠ receiver.id := by
      intro hcontra
      apply hneacc
      rw [hsacc, haccMatch receiver hrmem, hcontra]
    rw [if_neg hneacc] at hsb hrb
    rw [resetDaily_Amount] at hsb
    have hs2wid : (taskDebit (resetDaily sender today) j.amount).id = sender.id := by
      rw [taskDebit_id, resetDaily_id]
    have hs2wacc : (taskDebit (resetDaily sender today) j.amount).AccountNo =
        sender.AccountNo := by
      rw [taskDebit_AccountNo, resetDaily_AccountNo]
    have hs2wam : (taskDebit (resetDaily sender today) j.amount).Amount =
        sender.Amount - j.amount := by
      rw [taskDebit_Amount, resetDaily_Amount]
    have heq := taskApply_eq_double j.amount hn haccMatch hsmem hrmem hneacc
      hs2wid hs2wacc
    have hdb2u : db2.users = updateUser (updateUser st.db.users
        (taskDebit (resetDaily sender today) j.amount)) (creditUser receiver j.amount) := by
      rw [hdb2]
      exact heq
    have hcrid : (creditUser receiver j.amount).id = receiver.id := creditUser_id _ _
    have hcram : (creditUser receiver j.amount).Amount = receiver.Amount + j.amount :=
      creditUser_Amount _ _
    have hn2 : ((updateUser st.db.users (taskDebit (resetDaily sender today)
        j.amount)).map User.id).Nodup := by
      rw [updateUser_map_id]; exact hn
    have hs2mem1 : taskDebit (resetDaily sender today) j.amount ∈
        updateUser st.db.users (taskDebit (resetDaily sender today) j.amount) :=
      mem_updateUser_self _ _ sender hsmem hs2wid.symm
    have hrmem1 : receiver ∈
        updateUser st.db.users (taskDebit (resetDaily sender today) j.amount) := by
      refine mem_updateUser_of_ne _ _ _ hrmem ?_
      rw [hs2wid]
      exact fun hc => hidne hc.symm
    refine ⟨sender, receiver, hf1, hf2, hamt, by rw [hsb], by rw [hrb],
      ⟨taskDebit (resetDaily sender today) j.amount, ?_, hs2wid, hs2wam⟩,
      ⟨creditUser receiver j.amount, ?_, hcrid, hcram⟩, ?_, ?_⟩
    · rw [hdb2u]
      refine mem_updateUser_of_ne _ _ _ hs2mem1 ?_
      rw [hs2wid, hcrid]
      exact hidne
    · rw [hdb2u]
      exact mem_updateUser_self _ _ receiver hrmem1 hcrid.symm
    · intro x hx hxs hxr
      rw [hdb2u]
      refine mem_updateUser_of_ne _ _ _ (mem_updateUser_of_ne _ _ _ hx ?_) ?_
      · rw [hs2wid]; exact hxs
      · rw [hcrid]; exact hxr
    · have h1 := balanceSum_updateUser st.db.users
        (taskDebit (resetDaily sender today) j.amount) sender hn hsmem hs2wid
      have h2 := balanceSum_updateUser
        (updateUser st.db.users (taskDebit (resetDaily sender today) j.amount))
        (creditUser receiver j.amount) receiver hn2 hrmem1 hcrid
      rw [hdb2u, h2, h1, hs2wam, hcram]
      ring

end Banking

namespace Banking

/-- Witness for C1: the concrete immediate transfer of 500 from alice to bob
and the concrete dispatch of the persisted scheduled job from the reachable
scheduled state both conserve the total balance and move exactly 500. -/
theorem C1_conservation_witness :
    (∃ sender receiver,
      findById dbMain.users 1 = some sender ∧
      findByAcc dbMain.users 1000000002 = some receiver ∧
      (4500 : ℤ) = sender.Amount - 500 ∧ (3500 : ℤ) = receiver.Amount + 500 ∧
      (∃ s', s' ∈ (money_transfer dbMain 1 1000000002 500 0 true).1.users ∧
        s'.id = sender.id ∧ s'.Amount = sender.Amount - 500) ∧
      (∃ r', r' ∈ (money_transfer dbMain 1 1000000002 500 0 true).1.users ∧
        r'.id = receiver.id ∧ r'.Amount = receiver.Amount + 500) ∧
      (∀ x ∈ dbMain.users, x.id ≠ sender.id → x.id ≠ receiver.id →
        x ∈ (money_transfer dbMain 1 1000000002 500 0 true).1.users) ∧
      balanceSum (money_transfer dbMain 1 1000000002 500 0 true).1.users =
        balanceSum dbMain.users) ∧
    (∃ sender receiver,
      findById scheduledState.db.users 1 = some sender ∧
      findByAcc scheduledState.db.users 1000000002 = some receiver ∧
      (500 : ℤ) = (500 : ℤ) ∧
      (4500 : ℤ) = sender.Amount - 500 ∧ (5500 : ℤ) = receiver.Amount + 500 ∧
      (∃ s', s' ∈ (schedule_money_transfer_task scheduledState.db 1 1000000002 500 0
          false).1.users ∧
        s'.id = sender.id ∧ s'.Amount = sender.Amount - 500) ∧
      (∃ r', r' ∈ (schedule_money_transfer_task scheduledState.db 1 1000000002 500 0
          false).1.users ∧
        r'.id = receiver.id ∧ r'.Amount = receiver.Amount + 500) ∧
      (∀ x ∈ scheduledState.db.users, x.id ≠ sender.id → x.id ≠ receiver.id →
        x ∈ (schedule_money_transfer_task scheduledState.db 1 1000000002 500 0
          false).1.users) ∧
      balanceSum (schedule_money_transfer_task scheduledState.db 1 1000000002 500 0
          false).1.users =
        balanceSum scheduledState.db.users) :=
  ⟨C1_conservation.1 dbMain 1 1000000002 500 0 true
      (money_transfer dbMain 1 1000000002 500 0 true).1 4500 1500 3500
      (by decide) (by decide),
   C1_conservation.2 scheduledState ⟨5, 1, 1000000002, 500, 86400⟩ 0
      (schedule_money_transfer_task scheduledState.db 1 1000000002 500 0 false).1
      4500 1500 5500 500 scheduledState_reachable (by decide) (by decide)⟩

end Banking
